import Mathlib

/-!
Verification development for the tlb_winmd_gen repository: a shallow
embedding of the IDL-synthesis engine (src/idlgen.rs) and of the browsing
state machine (src/ui.rs), together with theorems settling the claims about
the natural-language specification.

Modelling conventions:
- COM calls that return `Result<T, Error>` are modelled as `Option`
  (for results consumed with `if let Ok(..)`, where the error payload is
  never inspected) or `Except Unit` (where `?` propagation matters, as in
  `build_tlb`).
- Strings copied out of the library (names, doc strings, rendered GUIDs)
  are plain `String` fields; GUID values are carried already rendered,
  since the source only ever prints them with the Debug formatter.
- Machine integers are `Nat`/`Int`; the only wrap-relevant operation is
  the `{:08x}` rendering of a 32-bit member id, done with an explicit
  `% 2^32`.
- `u16` flag words are `Nat` with explicit bit masks, exactly the masks
  the source tests.
- Rust `char::to_ascii_lowercase`-style comparisons are modelled with
  `Char.toLower`, which lowercases exactly the ASCII range.
-/

namespace TlbWinmdGen

/-- Rust `str::to_lowercase`, restricted to its ASCII action (the
source only compares ASCII identifiers). -/
def str_to_lower (s : String) : String :=
  String.mk (s.data.map Char.toLower)

/-- Rust `str::eq_ignore_ascii_case`. -/
def eqIgnoreAsciiCase (a b : String) : Bool :=
  a.data.map Char.toLower == b.data.map Char.toLower

/-- Rust `str::contains(&substring)`: `hay` contains `q` as a substring. -/
def strContains (hay q : String) : Bool :=
  hay.data.tails.any (fun t => q.data.isPrefixOf t)

/-- Rust `str::trim_end_matches('*')`: strips EVERY trailing asterisk. -/
def trim_end_stars (s : String) : String :=
  String.mk ((s.data.reverse.dropWhile (fun c => c = '*')).reverse)

/-- Modelled from the spec: the operation the spec describes for retval
normalization, "the parameter's resolved type with exactly ONE trailing
pointer-indirection marker stripped".  Used only to compare the spec's
wording against the source's `trim_end_matches('*')`. -/
def strip_one_star (s : String) : String :=
  if s.data.getLast? = some '*' then String.mk s.data.dropLast else s

/-- Rust `for i, .. { if i > 0 { write ", " } write item }`:
comma-separated joining. -/
def join_comma : List String → String
  | [] => ""
  | [x] => x
  | x :: xs => x ++ ", " ++ join_comma xs

/-- One lowercase hex digit. -/
def hexDigit (n : Nat) : Char :=
  if n < 10 then Char.ofNat (48 + n) else Char.ofNat (87 + n)

/-- Rust `format!("{:08x}", memid)` for an `i32` member id: the 32-bit
two's-complement bit pattern, zero-padded to eight lowercase hex digits. -/
def hex8 (m : Int) : String :=
  let n := (m % (2 ^ 32 : Int)).toNat
  String.mk ((List.range 8).map (fun k => hexDigit (n / 16 ^ (7 - k) % 16)))

/-! ## Type descriptors and the resolver (`type_desc_to_string`) -/

/-- Rust `TYPEKIND` values from the platform metadata system.  The named
constructors carry the eight values the source matches on; `tkindOther`
carries any other raw tag. -/
inductive TypeKind where
  | tkindEnum
  | tkindRecord
  | tkindModule
  | tkindInterface
  | tkindDispatch
  | tkindCoclass
  | tkindAlias
  | tkindUnion
  | tkindOther (raw : Int)
deriving DecidableEq, Repr

/-- The raw `i32` inside a `TYPEKIND` value. -/
def TypeKind.code : TypeKind → Int
  | .tkindEnum => 0
  | .tkindRecord => 1
  | .tkindModule => 2
  | .tkindInterface => 3
  | .tkindDispatch => 4
  | .tkindCoclass => 5
  | .tkindAlias => 6
  | .tkindUnion => 7
  | .tkindOther raw => raw

/-- Rust `format!("{:?}", type_kind)` on the windows-rs `TYPEKIND`
newtype (derived Debug). -/
def kind_debug (k : TypeKind) : String :=
  "TYPEKIND(" ++ toString k.code ++ ")"

/-- A `TYPEDESC`: `vt` is either one of the non-structural variant tags
(`prim`), or `VT_PTR` (26) with a pointee descriptor, or `VT_USERDEFINED`
(29) with an `hreftype` handle. -/
inductive TypeDesc where
  | prim (vt : Nat)
  | ptr (pointee : TypeDesc)
  | userDefined (href : Nat)
deriving DecidableEq, Repr

/-- What `GetRefTypeInfo` + `GetDocumentation` + `GetTypeAttr` yield for a
referenced type: its name, and its kind when `GetTypeAttr` succeeds
(`none` models a failing `GetTypeAttr`). -/
structure RefInfo where
  name : String
  kind : Option TypeKind
deriving Repr

/-- The resolution environment of one `ITypeInfo`: `GetRefTypeInfo` as a
lookup map from `hreftype` handles (`none` models a failing call). -/
def RefEnv : Type := Nat → Option RefInfo

/-- The first arm group of the `match` in `type_desc_to_string`: the name
assigned to each recognized non-structural variant tag, `none` for a tag
that falls through to the `TYPE_<n>` default. -/
def prim_name : Nat → Option String
  | 2 => some "short"
  | 3 => some "long"
  | 4 => some "float"
  | 5 => some "double"
  | 6 => some "CURRENCY"
  | 7 => some "DATE"
  | 8 => some "BSTR"
  | 9 => some "IDispatch*"
  | 10 => some "SCODE"
  | 11 => some "VARIANT_BOOL"
  | 12 => some "VARIANT"
  | 13 => some "IUnknown*"
  | 14 => some "DECIMAL"
  | 16 => some "char"
  | 17 => some "unsigned char"
  | 18 => some "unsigned short"
  | 19 => some "unsigned long"
  | 20 => some "int64"
  | 21 => some "uint64"
  | 22 => some "int"
  | 23 => some "unsigned int"
  | 24 => some "void"
  | 25 => some "HRESULT"
  | 27 => some "SAFEARRAY"
  | 30 => some "LPSTR"
  | 31 => some "LPWSTR"
  | _ => none

/-- Rust `type_desc_to_string` from src/idlgen.rs: total resolution of a type
descriptor to a name string. -/
def type_desc_to_string (env : RefEnv) : TypeDesc → String
  | .prim vt => (prim_name vt).getD ("TYPE_" ++ toString vt)
  | .ptr pointee => type_desc_to_string env pointee ++ "*"
  | .userDefined href =>
    match env href with
    | some ri =>
      match ri.kind with
      | some k => if k = .tkindEnum then "enum " ++ ri.name else ri.name
      | none => ri.name
    | none => "UnknownUserDefined"

/-! ## Member extraction (`get_function_info`) -/

/-- Rust `INVOKEKIND` restricted to the four cases the source distinguishes. -/
inductive InvokeKind where
  | func
  | propertyget
  | propertyput
  | propertyputref
deriving DecidableEq, Repr

/-- One parameter's `ELEMDESC`: its type descriptor, the `wParamFlags`
word, and — when `PARAMFLAG_FHASDEFAULT` is set — the rendering of
`varDefaultValue` by `variant_to_string` (`none` models a null
`pparamdescex`). -/
structure ElemDesc where
  tdesc : TypeDesc
  wParamFlags : Nat
  defaultVal : Option String
deriving DecidableEq, Repr

/-- A `FUNCDESC`: member id, invoke kind, return `TYPEDESC`
(`elemdescFunc.tdesc`) and the parameter array. -/
structure FuncDesc where
  memid : Int
  invkind : InvokeKind
  retTdesc : TypeDesc
  params : List ElemDesc
deriving DecidableEq, Repr

/-- Rust `ParamInfo` from src/idlgen.rs. -/
structure ParamInfo where
  name : String
  type_name : String
  flags : List String
deriving DecidableEq, Repr

/-- Rust `MethodInfo` from src/idlgen.rs. -/
structure MethodInfo where
  name : String
  ret_type : String
  params : List ParamInfo
  invoke_kind : String
deriving DecidableEq, Repr

/-- Rust `EnumItemInfo` from src/idlgen.rs. -/
structure EnumItemInfo where
  name : String
  value : String
deriving DecidableEq, Repr

/-- The flag list built in `get_function_info` from `wParamFlags`
(bit order: in, out, lcid, retval, optional, defaultvalue). -/
def param_flag_list (f : Nat) : List String :=
  (if f &&& 1 ≠ 0 then ["in"] else [])
    ++ (if f &&& 2 ≠ 0 then ["out"] else [])
    ++ (if f &&& 4 ≠ 0 then ["lcid"] else [])
    ++ (if f &&& 8 ≠ 0 then ["retval"] else [])
    ++ (if f &&& 16 ≠ 0 then ["optional"] else [])
    ++ (if f &&& 32 ≠ 0 then ["defaultvalue"] else [])

/-- The parameter-name rule shared by `get_function_info` and
`print_function`: `names` is the `GetNames` result (entry 0 is the
function name), parameter `i` uses `names[i+1]` when present and the
synthesized `arg<i>` otherwise. -/
def param_name_at (names : List String) (i : Nat) : String :=
  match names[i + 1]? with
  | some s => s
  | none => "arg" ++ toString i

/-- The parameter-building loop of `get_function_info`, with the running
index made explicit. -/
def build_params (env : RefEnv) (names : List String) : Nat → List ElemDesc → List ParamInfo
  | _, [] => []
  | i, ed :: rest =>
    { name := param_name_at names i,
      type_name := type_desc_to_string env ed.tdesc,
      flags := param_flag_list ed.wParamFlags } :: build_params env names (i + 1) rest

/-- The `invkind` rendering in `get_function_info`. -/
def invoke_kind_str (k : InvokeKind) : String :=
  match k with
  | .propertyget => "propget"
  | .propertyput => "propput"
  | .propertyputref => "propputref"
  | .func => "func"

/-- The member-id filter for the universal base-interface range
(`0x60000000..0x60020000`). -/
def hidden_memid (memid : Int) : Prop :=
  0x60000000 ≤ memid ∧ memid < 0x60020000

instance (memid : Int) : Decidable (hidden_memid memid) := by
  unfold hidden_memid; infer_instance

/-- Rust `get_function_info` from src/idlgen.rs: extraction of one Method,
including the retval-normalization transform.  `funcName` is the name
returned by `GetDocumentation(memid)`; `names` is the `GetNames` result.
Returns `none` for members in the hidden base-interface range (the
source returns an error there, whose payload the callers never read). -/
def get_function_info (env : RefEnv) (funcName : String) (names : List String)
    (fd : FuncDesc) : Option MethodInfo :=
  if hidden_memid fd.memid then none
  else
    let invoke_kind := invoke_kind_str fd.invkind
    let ret_type := type_desc_to_string env fd.retTdesc
    let params := build_params env names 0 fd.params
    if fd.invkind = .propertyget ∨ ret_type ≠ "void" then
      match params.findIdx? (fun p => p.flags.contains "retval") with
      | some pos =>
        some { name := funcName,
               ret_type := trim_end_stars ((params.getD pos ⟨"", "", []⟩).type_name),
               params := params.eraseIdx pos,
               invoke_kind := invoke_kind }
      | none =>
        some { name := funcName, ret_type := ret_type, params := params,
               invoke_kind := invoke_kind }
    else
      some { name := funcName, ret_type := ret_type, params := params,
             invoke_kind := invoke_kind }

/-! ## The batch text emitter for one method (`print_function`) -/

/-- The bracketed invoke-kind tag prepended to a signature line. -/
def prop_tag (k : InvokeKind) : String :=
  match k with
  | .propertyget => "[propget] "
  | .propertyput => "[propput] "
  | .propertyputref => "[propputref] "
  | .func => ""

/-- The id/helpstring attribute line of one emitted method. -/
def id_line (memid : Int) (docString : String) : String :=
  "        [id(0x" ++ hex8 memid ++ ")"
    ++ (if docString ≠ "" then ", helpstring(\"" ++ docString ++ "\")" else "")
    ++ "]"

/-- The attribute list rendered for one parameter by `print_function`
(same bits as `param_flag_list`, but `defaultvalue` carries the rendered
default when one is available). -/
def param_attr_list (ed : ElemDesc) : List String :=
  (if ed.wParamFlags &&& 1 ≠ 0 then ["in"] else [])
    ++ (if ed.wParamFlags &&& 2 ≠ 0 then ["out"] else [])
    ++ (if ed.wParamFlags &&& 4 ≠ 0 then ["lcid"] else [])
    ++ (if ed.wParamFlags &&& 8 ≠ 0 then ["retval"] else [])
    ++ (if ed.wParamFlags &&& 16 ≠ 0 then ["optional"] else [])
    ++ (if ed.wParamFlags &&& 32 ≠ 0 then
          [match ed.defaultVal with
           | some s => if s ≠ "" then "defaultvalue(" ++ s ++ ")" else "defaultvalue"
           | none => "defaultvalue"]
        else [])

/-- One parameter as printed by `print_function`: `[attrs] Type name`. -/
def param_text (env : RefEnv) (names : List String) (i : Nat) (ed : ElemDesc) : String :=
  (if ¬ (param_attr_list ed).isEmpty
   then "[" ++ join_comma (param_attr_list ed) ++ "] "
   else "")
    ++ type_desc_to_string env ed.tdesc ++ " " ++ param_name_at names i

/-- The parameter-printing loop of `print_function`, index explicit. -/
def print_params (env : RefEnv) (names : List String) : Nat → List ElemDesc → List String
  | _, [] => []
  | i, ed :: rest => param_text env names i ed :: print_params env names (i + 1) rest

/-- The name chosen in `print_function` for the synthesized trailing
output parameter: `val`, or `retVal` when any entry of `names[1..]`
(the `GetNames` parameter names) equals `val` case-insensitively. -/
def ret_val_name (names : List String) : String :=
  if (names.drop 1).any (fun s => eqIgnoreAsciiCase s "val") then "retVal" else "val"

/-- The trailing `[out, retval]` fragment appended by `print_function`
when the method's declared return type is not `void` or its invoke kind
is property-get. -/
def ret_tail (env : RefEnv) (names : List String) (fd : FuncDesc) : String :=
  if fd.invkind = .propertyget ∨ type_desc_to_string env fd.retTdesc ≠ "void" then
    (if fd.params.length > 0 then ", " else "")
      ++ "[out, retval] " ++ type_desc_to_string env fd.retTdesc ++ "* " ++ ret_val_name names
  else ""

/-- Rust `print_function` from src/idlgen.rs: the lines emitted for one
method in batch IDL output (empty for the hidden base-interface range). -/
def print_function (env : RefEnv) (funcName docString : String) (names : List String)
    (fd : FuncDesc) : List String :=
  if hidden_memid fd.memid then []
  else
    [id_line fd.memid docString,
     "        " ++ prop_tag fd.invkind ++ "HRESULT " ++ funcName ++ " ("
       ++ join_comma (print_params env names 0 fd.params)
       ++ ret_tail env names fd ++ ");"]

/-! ## The library model for `build_tlb` / `print_type_info`

Output is modelled as a list of lines.  The source writes lines
incrementally; an aborted pass has written a truncated piece of output, which the
`Except`-model collapses into a plain error (the claims only concern the
success output and the success/failure status). -/

/-- One `GetFuncDesc` slot of a type: whether the call succeeds, the
descriptor, the `GetDocumentation(memid)` name/doc and the `GetNames`
result. -/
structure FuncEntry where
  ok : Bool
  fd : FuncDesc
  docName : String
  docString : String
  names : List String
deriving Repr

/-- One `GetVarDesc` slot: whether the call succeeds, the member id,
name, the `lpvarValue` integer when non-null, and the variable's
`TYPEDESC` (used for record fields). -/
structure VarEntry where
  ok : Bool
  memid : Int
  name : String
  lVal : Option Int
  tdesc : TypeDesc
deriving Repr

/-- One implemented-type slot: `GetRefTypeOfImplType` success,
`GetRefTypeInfo` success, the referenced name, and `GetImplTypeFlags`
(`none` models the `unwrap_or(default)` error case). -/
structure ImplEntry where
  href_ok : Bool
  ref_ok : Bool
  refName : String
  implFlags : Option Nat
deriving Repr

/-- The `TYPEATTR` fields the source reads. -/
structure TypeAttrM where
  typekind : TypeKind
  wTypeFlags : Nat
  guid : String
  major : Nat
  minor : Nat
deriving Repr

/-- One vendor custom-data item: rendered GUID, and the `BSTR` payload
when `vt == VT_BSTR` (`none` for any other variant type). -/
structure CustItem where
  guid : String
  bstrVal : Option String
deriving Repr

/-- One `ITypeInfo`: `attr = none` models a failing `GetTypeAttr` (which
the source propagates with `?`); `cast2Ok` models the `ITypeInfo2` cast;
`custDataRes` the `GetAllCustData` call; `dllEntry` the `GetDllEntry`
call used for modules; `env` the `GetRefTypeInfo` environment used by
the type-descriptor resolver. -/
structure TypeInfoM where
  attr : Option TypeAttrM
  name : String
  docString : String
  funcs : List FuncEntry
  vars : List VarEntry
  implTypes : List ImplEntry
  cast2Ok : Bool
  custDataRes : Except Unit (List CustItem)
  dllEntry : Except Unit String
  env : RefEnv

/-- The opened library: `entries` holds `none` where `GetTypeInfo(i)`
fails (the source skips those with `if let Ok`). -/
structure TypeLibM where
  libAttrOk : Bool
  libGuid : String
  libMajor : Nat
  libMinor : Nat
  docOk : Bool
  libName : String
  libDocString : String
  cast2Ok : Bool
  libCustRes : Except Unit (List CustItem)
  entries : List (Option TypeInfoM)
  path : String

/-- Attribute lines with the all-but-last comma-suffix rule. -/
def attr_lines (indent : String) : List String → List String
  | [] => []
  | [a] => [indent ++ a]
  | a :: rest => (indent ++ a ++ ",") :: attr_lines indent rest

/-- Rust `custom(GUID, "value")` attributes from custom-data items: only
`BSTR`-valued items are surfaced. -/
def cust_attrs (items : List CustItem) : List String :=
  items.filterMap (fun it => it.bstrVal.map (fun s => "custom(" ++ it.guid ++ ", \"" ++ s ++ "\")"))

/-- Rust `get_custom_data` for one type: cast failure yields no attributes,
`GetAllCustData` failure propagates. -/
def type_custom_attrs (ti : TypeInfoM) : Except Unit (List String) :=
  if ti.cast2Ok then
    match ti.custDataRes with
    | .error e => .error e
    | .ok items => .ok (cust_attrs items)
  else .ok []

/-- Rust `get_lib_custom_data` guarded by the `ITypeLib2` cast in `build_tlb`. -/
def lib_custom_attrs (lib : TypeLibM) : Except Unit (List String) :=
  if lib.cast2Ok then
    match lib.libCustRes with
    | .error e => .error e
    | .ok items => .ok (cust_attrs items)
  else .ok []

/-- The per-type boolean flag attributes, in the source's `flags_map`
order (hidden, dual, restricted, nonextensible, oleautomation). -/
def flag_attrs (f : Nat) : List String :=
  (if f &&& 16 ≠ 0 then ["hidden"] else [])
    ++ (if f &&& 64 ≠ 0 then ["dual"] else [])
    ++ (if f &&& 1 ≠ 0 then ["restricted"] else [])
    ++ (if f &&& 128 ≠ 0 then ["nonextensible"] else [])
    ++ (if f &&& 256 ≠ 0 then ["oleautomation"] else [])

/-- Rust `print_interface_header` from src/idlgen.rs: the bracketed attribute
block, emitted for Interface, Dispatch, CoClass and Enum kinds only.
Re-reads `GetTypeAttr` (propagating failure) and propagates a
`GetAllCustData` failure. -/
def print_interface_header (ti : TypeInfoM) : Except Unit (List String) :=
  match ti.attr with
  | none => .error ()
  | some a =>
    if a.typekind = .tkindInterface ∨ a.typekind = .tkindDispatch
        ∨ a.typekind = .tkindCoclass ∨ a.typekind = .tkindEnum then
      match type_custom_attrs ti with
      | .error e => .error e
      | .ok cust =>
        .ok ("    [" ::
          attr_lines "      "
            (["uuid(" ++ a.guid ++ ")"]
              ++ (if a.major ≠ 0 ∨ a.minor > 0 then
                    ["version(" ++ toString a.major ++ "." ++ toString a.minor ++ ")"]
                  else [])
              ++ (if ti.docString ≠ "" then ["helpstring(\"" ++ ti.docString ++ "\")"] else [])
              ++ flag_attrs a.wTypeFlags
              ++ (if a.wTypeFlags &&& (4096 ||| 64) ≠ 0 then ["oleautomation"] else [])
              ++ cust)
          ++ ["    ]"])
    else .ok []

/-- The function-printing loop shared by interface and dual-dispatch
bodies: slots whose `GetFuncDesc` failed are skipped. -/
def funcs_lines (env : RefEnv) : List FuncEntry → List String
  | [] => []
  | fe :: rest =>
    (if fe.ok then print_function env fe.docName fe.docString fe.names fe.fd else [])
      ++ funcs_lines env rest

/-- The base-interface name resolution for interface-like bodies. -/
def base_name_of (ti : TypeInfoM) : String :=
  match ti.implTypes[0]? with
  | some ie => if ie.href_ok ∧ ie.ref_ok then ie.refName else ""
  | none => ""

/-- The `interface Name [: Base] { ... };` body used for Interface
entries and dual Dispatch entries. -/
def interface_like_body (ti : TypeInfoM) : List String :=
  (if base_name_of ti ≠ "" then
    "    interface " ++ ti.name ++ " : " ++ base_name_of ti ++ " \x7b"
   else
    "    interface " ++ ti.name ++ " \x7b")
    :: funcs_lines ti.env ti.funcs
    ++ ["    \x7d;"]

/-- Rust `print_var` from src/idlgen.rs (enum members). -/
def print_var (v : VarEntry) : List String :=
  match v.lVal with
  | some n => ["        " ++ v.name ++ " = " ++ toString n ++ ","]
  | none => ["        " ++ v.name ++ ","]

/-- The enum-body loop: slots whose `GetVarDesc` failed are skipped. -/
def enum_var_lines : List VarEntry → List String
  | [] => []
  | v :: rest => (if v.ok then print_var v else []) ++ enum_var_lines rest

/-- The `enum Name { ... };` body. -/
def enum_body (ti : TypeInfoM) : List String :=
  ("    enum " ++ ti.name ++ " \x7b") :: enum_var_lines ti.vars ++ ["    \x7d;"]

/-- One `coclass` implemented-type line ([default]/[source] from the
impl-type flag bits; a failing `GetImplTypeFlags` defaults to 0). -/
def impl_line (ie : ImplEntry) : List String :=
  if ie.href_ok ∧ ie.ref_ok then
    ["        "
      ++ (if (ie.implFlags.getD 0) &&& 1 ≠ 0 then "[default] " else "")
      ++ (if (ie.implFlags.getD 0) &&& 2 ≠ 0 then "[source] " else "")
      ++ "interface " ++ ie.refName ++ ";"]
  else []

/-- The coclass implemented-type loop. -/
def impl_lines : List ImplEntry → List String
  | [] => []
  | ie :: rest => impl_line ie ++ impl_lines rest

/-- The `coclass Name { ... };` body. -/
def coclass_body (ti : TypeInfoM) : List String :=
  ("    coclass " ++ ti.name ++ " \x7b") :: impl_lines ti.implTypes ++ ["    \x7d;"]

/-- The Alias body: a `typedef` line only when the underlying reference
resolves. -/
def alias_body (ti : TypeInfoM) : List String :=
  match ti.implTypes[0]? with
  | some ie => if ie.href_ok ∧ ie.ref_ok then ["    typedef " ++ ti.name ++ ";"] else []
  | none => []

/-- Rust `print_record_member` loop: one `Type name;` line per readable var. -/
def record_lines (env : RefEnv) : List VarEntry → List String
  | [] => []
  | v :: rest =>
    (if v.ok then ["        " ++ type_desc_to_string env v.tdesc ++ " " ++ v.name ++ ";"] else [])
      ++ record_lines env rest

/-- The `typedef struct tagName { ... } Name;` body. -/
def record_body (ti : TypeInfoM) : List String :=
  ("    typedef struct tag" ++ ti.name ++ " \x7b")
    :: record_lines ti.env ti.vars
    ++ ["    \x7d " ++ ti.name ++ ";"]

/-- Rust `print_module_const` loop: a `const int` line per var with a
non-null value. -/
def module_const_lines : List VarEntry → List String
  | [] => []
  | v :: rest =>
    (if v.ok then
      match v.lVal with
      | some n => ["        const int " ++ v.name ++ " = " ++ toString n ++ ";"]
      | none => []
     else [])
      ++ module_const_lines rest

/-- The Module body: its own attribute block (dllname from the first
function's linkage info when available), then constants. -/
def module_body (ti : TypeInfoM) (a : TypeAttrM) : List String :=
  let dll_name :=
    match ti.funcs[0]? with
    | some fe =>
      if fe.ok then (match ti.dllEntry with | .ok s => s | .error _ => "") else ""
    | none => ""
  let attrs :=
    (if dll_name ≠ "" then ["dllname(\"" ++ dll_name ++ "\")"] else [])
      ++ ["uuid(" ++ a.guid ++ ")"]
      ++ (if ti.docString ≠ "" then ["helpstring(\"" ++ ti.docString ++ "\")"] else [])
  "    [" :: attr_lines "      " attrs
    ++ ["    ]", "    module " ++ ti.name ++ " \x7b"]
    ++ module_const_lines ti.vars
    ++ ["    \x7d;"]

/-- The per-kind body of `print_type_info` (after the shared header). -/
def type_body (ti : TypeInfoM) (a : TypeAttrM) : List String :=
  match a.typekind with
  | .tkindInterface => interface_like_body ti
  | .tkindDispatch =>
    if a.wTypeFlags &&& 64 ≠ 0 then interface_like_body ti else []
  | .tkindEnum => enum_body ti
  | .tkindCoclass => coclass_body ti
  | .tkindAlias => alias_body ti
  | .tkindRecord => record_body ti
  | .tkindModule => module_body ti a
  | _ => ["    // Unsupported type kind: " ++ kind_debug a.typekind]

/-- Rust `print_type_info` from src/idlgen.rs: shared attribute header, the
per-kind body, a trailing blank line.  A failing `GetTypeAttr` or
`GetAllCustData` aborts (the source propagates them with `?`). -/
def print_type_info (ti : TypeInfoM) : Except Unit (List String) :=
  match ti.attr with
  | none => .error ()
  | some a =>
    match print_interface_header ti with
    | .error e => .error e
    | .ok header => .ok (header ++ type_body ti a ++ [""])

/-- The forward declaration emitted for one entry in the first loop of
`build_tlb` (`GetTypeAttr` failure propagates with `?`). -/
def fwd_decl_one (ti : TypeInfoM) : Except Unit (List String) :=
  match ti.attr with
  | none => .error ()
  | some a =>
    .ok (match a.typekind with
      | .tkindInterface => ["    interface " ++ ti.name ++ ";"]
      | .tkindDispatch =>
        if a.wTypeFlags &&& 64 ≠ 0 then ["    interface " ++ ti.name ++ ";"]
        else ["    dispinterface " ++ ti.name ++ ";"]
      | .tkindCoclass => ["    coclass " ++ ti.name ++ ";"]
      | _ => [])

/-- One entry of the enum-body pass of `build_tlb`. -/
def enum_pass_one (ti : TypeInfoM) : Except Unit (List String) :=
  match ti.attr with
  | none => .error ()
  | some a => if a.typekind = .tkindEnum then print_type_info ti else .ok []

/-- One entry of the remaining-bodies pass of `build_tlb`. -/
def other_pass_one (ti : TypeInfoM) : Except Unit (List String) :=
  match ti.attr with
  | none => .error ()
  | some a => if a.typekind ≠ .tkindEnum then print_type_info ti else .ok []

/-- One loop of `build_tlb` over all entries: a failing `GetTypeInfo(i)`
is skipped silently (`if let Ok`), any error from the per-entry step
aborts the loop. -/
def collect_entries (f : TypeInfoM → Except Unit (List String)) :
    List (Option TypeInfoM) → Except Unit (List String)
  | [] => .ok []
  | none :: rest => collect_entries f rest
  | some ti :: rest =>
    match f ti with
    | .error e => .error e
    | .ok l =>
      match collect_entries f rest with
      | .error e => .error e
      | .ok ls => .ok (l ++ ls)

/-- The library-level attributes (uuid, version, helpstring). -/
def lib_base_attrs (lib : TypeLibM) : List String :=
  ["uuid(" ++ lib.libGuid ++ ")",
   "version(" ++ toString lib.libMajor ++ "." ++ toString lib.libMinor ++ ")",
   "helpstring(\"" ++ lib.libDocString ++ "\")"]

/-- The leading lines of the batch output: source-path comment, library
attribute block, `library Name`, opening brace, blank line. -/
def lib_header_with (lib : TypeLibM) (custom : List String) : List String :=
  ("// Decompilated from " ++ lib.path)
    :: "[" :: attr_lines "  " (lib_base_attrs lib ++ custom)
    ++ ["]", "library " ++ lib.libName, "\x7b", ""]

/-- Rust `build_tlb` from src/idlgen.rs: header, forward declarations, enum
bodies, remaining bodies, closing brace.  `GetLibAttr`,
`GetDocumentation(-1)`, a failing library `GetAllCustData`, and any
per-entry `GetTypeAttr`/`GetAllCustData` failure abort the pass. -/
def build_tlb (lib : TypeLibM) : Except Unit (List String) :=
  if lib.libAttrOk = false then .error ()
  else if lib.docOk = false then .error ()
  else
    match lib_custom_attrs lib with
    | .error e => .error e
    | .ok custom =>
      match collect_entries fwd_decl_one lib.entries with
      | .error e => .error e
      | .ok fwd =>
        match collect_entries enum_pass_one lib.entries with
        | .error e => .error e
        | .ok ens =>
          match collect_entries other_pass_one lib.entries with
          | .error e => .error e
          | .ok rest =>
            .ok (lib_header_with lib custom
              ++ fwd ++ [""] ++ ens ++ [""] ++ rest ++ ["\x7d;"])

/-- The lines of an `Except`-producing step, empty on error (used to
state success-case decompositions). -/
def except_list (e : Except Unit (List String)) : List String :=
  match e with
  | .ok l => l
  | .error _ => []

/-- The per-entry contribution of one `build_tlb` loop as a total
function (failing `GetTypeInfo` contributes nothing). -/
def opt_lines (f : TypeInfoM → Except Unit (List String)) : Option TypeInfoM → List String
  | none => []
  | some ti => except_list (f ti)

/-! ## The browsing state machine (src/ui.rs)

The `App` struct is modelled with its state-bearing fields; the
rendering-only collaborators (`tlb_path`, `doc_provider`) are omitted.
The `TypeLibInfo` getters consumed with `if let Ok(..)` are modelled as
`Option`-valued views of a per-type table (`none` = the COM call
failed; the error payload is never inspected by the UI).  Scrollbar
states carry their position and content length. -/

/-- Rust `SearchItem` from src/ui.rs. -/
structure SearchItem where
  type_index : Nat
  type_name : String
  member_name : String
  kind : String
deriving DecidableEq, Repr

/-- The per-type view of the opened library that the UI queries:
`get_type_name_and_kind`, `get_type_idl`, `get_type_methods`,
`get_type_enums` results for one index (`none` = the call failed). -/
structure UiType where
  nameKind : Option (String × String)
  idl : Option String
  methods : Option (List MethodInfo)
  enums : Option (List EnumItemInfo)
deriving DecidableEq, Repr

/-- Rust `get_type_idl(i)`: out-of-range indices fail like any COM error. -/
def lib_idl (lib : List UiType) (i : Nat) : Option String :=
  (lib[i]?).bind (fun t => t.idl)

/-- Rust `get_type_methods(i)`. -/
def lib_methods (lib : List UiType) (i : Nat) : Option (List MethodInfo) :=
  (lib[i]?).bind (fun t => t.methods)

/-- Rust `get_type_enums(i)`. -/
def lib_enums (lib : List UiType) (i : Nat) : Option (List EnumItemInfo) :=
  (lib[i]?).bind (fun t => t.enums)

/-- Rust `SearchTarget` from src/ui.rs. -/
inductive SearchTarget where
  | types
  | members
deriving DecidableEq, Repr

/-- Rust `Focus` from src/ui.rs. -/
inductive Focus where
  | typeList
  | content
deriving DecidableEq, Repr

/-- Rust `ViewMode` from src/ui.rs. -/
inductive ViewMode where
  | idl
  | structured
deriving DecidableEq, Repr

/-- A ratatui `ScrollbarState`: position and content length
(`ScrollbarState::default()` is `⟨0, 0⟩`). -/
structure ScrollSt where
  pos : Nat
  len : Nat
deriving DecidableEq, Repr

/-- The `App` state of src/ui.rs (state-bearing fields). -/
structure App where
  lib : List UiType
  show_doc : Bool
  types : List (String × String)
  filtered_types : List (Nat × String × String)
  list_selected : Option Nat
  list_scroll : ScrollSt
  current_idl : String
  current_methods : List MethodInfo
  current_enums : List EnumItemInfo
  search_query : String
  member_search_query : String
  view_mode : ViewMode
  search_target : SearchTarget
  focus : Focus
  content_selected : Option Nat
  content_scroll : ScrollSt
  all_search_items : List SearchItem
  show_global_search : Bool
  global_search_query : String
  global_search_results : List Nat
  global_selected : Option Nat
  global_scroll : ScrollSt
deriving DecidableEq

/-- The `types.iter().enumerate().filter(..).map(..)` pipeline of
`update_filter`, with the running original index made explicit:
case-insensitive substring match of the (already lowercased) query
against each type name. -/
def filter_types_from (q : String) : Nat → List (String × String) → List (Nat × String × String)
  | _, [] => []
  | i, (n, k) :: rest =>
    if strContains (str_to_lower n) q then (i, n, k) :: filter_types_from q (i + 1) rest
    else filter_types_from q (i + 1) rest

/-- The `all_search_items.iter().enumerate().filter(..).map(..)`
pipeline of `update_global_search`: indices of the items whose member
name contains the (already lowercased) query, in table order. -/
def search_results_from (q : String) : Nat → List SearchItem → List Nat
  | _, [] => []
  | i, it :: rest =>
    if strContains (str_to_lower it.member_name) q then i :: search_results_from q (i + 1) rest
    else search_results_from q (i + 1) rest

/-- Rust `App::update_selection` from src/ui.rs: reload the IDL text, method
list and enum list of the newly selected type (a failing IDL read keeps
the previous text; failing member reads clear the lists), then reset the
member selection to the first row when any member exists and the content
scroll state to default. -/
def update_selection (a : App) : App :=
  match a.list_selected.bind (fun sel => a.filtered_types[sel]?) with
  | none => a
  | some (oi, _, _) =>
    let ms := (lib_methods a.lib oi).getD []
    let es := (lib_enums a.lib oi).getD []
    { a with
      current_idl := (lib_idl a.lib oi).getD a.current_idl,
      current_methods := ms,
      current_enums := es,
      content_scroll := ⟨0, 0⟩,
      content_selected := if ¬ ms.isEmpty ∨ ¬ es.isEmpty then some 0 else none }

/-- Rust `App::update_filter` from src/ui.rs: recompute the filtered type
list from the lowercased type filter, clear the selection, then select
row 0 and reload via `update_selection` when the filtered list is
non-empty, or clear the content panes when it is empty. -/
def update_filter (a : App) : App :=
  let ft := filter_types_from (str_to_lower a.search_query) 0 a.types
  if ft.isEmpty then
    { a with filtered_types := ft, list_selected := none,
             list_scroll := { a.list_scroll with len := ft.length },
             current_idl := "", current_methods := [], current_enums := [],
             content_selected := none }
  else
    update_selection
      { a with filtered_types := ft, list_selected := some 0,
               list_scroll := { a.list_scroll with len := ft.length } }

/-- The content-pane length used by `App::next` / `App::previous`:
methods when any exist, else enum values. -/
def content_len (a : App) : Nat :=
  if ¬ a.current_methods.isEmpty then a.current_methods.length else a.current_enums.length

/-- The `usize` computation `n - 1` of the unguarded TypeList arms of
`App::next` / `App::previous`.  On the empty filtered list (`n = 0`)
this subtraction underflows in the source: a panic when overflow checks
are on (debug builds), wrap-around to `usize::MAX` in release builds.
The state that triggers it — TypeList focus, empty filtered list, a
selection present — IS reachable: one Down after emptying the filter.
The model implements the release (wrap-around) semantics explicitly. -/
def usize_sub_one (n : Nat) : Nat :=
  (n + (2 ^ 64 - 1)) % 2 ^ 64

/-- Rust `App::next` from src/ui.rs.  The TypeList arm computes
`filtered_types.len() - 1` unguarded; `usize_sub_one` carries its
wrap-around (release) semantics, including the reachable underflow on
an empty filtered list.  The Content arm is guarded by `len > 0`, so
its `len - 1` never underflows and plain `Nat` subtraction is exact. -/
def App.next (a : App) : App :=
  match a.focus with
  | .typeList =>
    let i := match a.list_selected with
      | some i => if i ≥ usize_sub_one a.filtered_types.length then 0 else i + 1
      | none => 0
    update_selection { a with list_selected := some i,
                              list_scroll := { a.list_scroll with pos := i } }
  | .content =>
    let len := content_len a
    if len > 0 then
      let i := match a.content_selected with
        | some i => if i ≥ len - 1 then 0 else i + 1
        | none => 0
      { a with content_selected := some i,
               content_scroll := { a.content_scroll with pos := i } }
    else a

/-- Rust `App::previous` from src/ui.rs (same unguarded `len() - 1` in
the TypeList arm as `next`, modelled with its wrap-around semantics). -/
def App.previous (a : App) : App :=
  match a.focus with
  | .typeList =>
    let i := match a.list_selected with
      | some i => if i = 0 then usize_sub_one a.filtered_types.length else i - 1
      | none => 0
    update_selection { a with list_selected := some i,
                              list_scroll := { a.list_scroll with pos := i } }
  | .content =>
    let len := content_len a
    if len > 0 then
      let i := match a.content_selected with
        | some i => if i = 0 then len - 1 else i - 1
        | none => 0
      { a with content_selected := some i,
               content_scroll := { a.content_scroll with pos := i } }
    else a

/-- Rust `App::update_global_search` from src/ui.rs: an empty query clears
the results; otherwise the whole `SearchItem` table is scanned and the
first result (if any) is selected. -/
def update_global_search (a : App) : App :=
  let q := str_to_lower a.global_search_query
  if q = "" then
    { a with global_search_results := [], global_selected := none }
  else
    let res := search_results_from q 0 a.all_search_items
    { a with global_search_results := res,
             global_selected := if ¬ res.isEmpty then some 0 else none }

/-- The member-row pre-selection block at the end of
`App::select_global_result`. -/
def select_member_row (a : App) (member_query : String) : App :=
  if ¬ a.current_methods.isEmpty then
    match a.current_methods.findIdx? (fun m => str_to_lower m.name == member_query) with
    | some pos => { a with content_selected := some pos }
    | none => a
  else if ¬ a.current_enums.isEmpty then
    match a.current_enums.findIdx? (fun e => str_to_lower e.name == member_query) with
    | some pos => { a with content_selected := some pos }
    | none => a
  else a

/-- Rust `App::select_global_result` from src/ui.rs: close the overlay,
clear the type filter (re-filtering), select the owning type when found,
switch the filter target to members, seed the member filter with the
chosen member's exact name, and pre-select the member row. -/
def select_global_result (a : App) : App :=
  match a.global_selected with
  | none => a
  | some sel =>
    match a.global_search_results[sel]? with
    | none => a
    | some item_idx =>
      match a.all_search_items[item_idx]? with
      | none => a
      | some item =>
        let a1 := update_filter { a with show_global_search := false, search_query := "" }
        let a2 := match a1.filtered_types.findIdx? (fun t => t.1 == item.type_index) with
          | some pos => update_selection { a1 with list_selected := some pos }
          | none => a1
        let a3 := { a2 with member_search_query := item.member_name,
                            search_target := .members }
        select_member_row a3 (str_to_lower item.member_name)

/-- The `types` vector built in `App::new`: one `(name, kind)` entry per
type whose `get_type_name_and_kind` succeeded. -/
def mk_types (lib : List UiType) : List (String × String) :=
  lib.filterMap (fun t => t.nameKind)

/-- The `all_search_items` table built in `App::new`, the loop index
made explicit: for each loadable type, one item per method then one per
enum value. -/
def mk_search_items_from : Nat → List UiType → List SearchItem
  | _, [] => []
  | i, t :: rest =>
    (match t.nameKind with
     | none => []
     | some (name, _) =>
       (match t.methods with
        | some ms => ms.map (fun m => ⟨i, name, m.name, "Method"⟩)
        | none => [])
       ++ (match t.enums with
           | some es => es.map (fun e => ⟨i, name, e.name, "Enum"⟩)
           | none => []))
      ++ mk_search_items_from (i + 1) rest

/-- The full search-index table of `App::new`. -/
def mk_search_items (lib : List UiType) : List SearchItem :=
  mk_search_items_from 0 lib

/-- Rust `App::new` from src/ui.rs (on an already-loaded library): build the
type table and search index, default all state, then run the initial
`update_filter`. -/
def App.new (lib : List UiType) : App :=
  update_filter
    { lib := lib, show_doc := false,
      types := mk_types lib, filtered_types := [],
      list_selected := none, list_scroll := ⟨0, 0⟩,
      current_idl := "", current_methods := [], current_enums := [],
      search_query := "", member_search_query := "",
      view_mode := .structured, search_target := .types, focus := .typeList,
      content_selected := none, content_scroll := ⟨0, 0⟩,
      all_search_items := mk_search_items lib,
      show_global_search := false, global_search_query := "",
      global_search_results := [], global_selected := none, global_scroll := ⟨0, 0⟩ }

/-- The state reached from `App::new` by typing global query `q` into
the opened global-search overlay. -/
def global_search_state (lib : List UiType) (q : String) : App :=
  update_global_search { App.new lib with show_global_search := true, global_search_query := q }

/-- The result list of the global-search overlay for query `q`. -/
def global_results (lib : List UiType) (q : String) : List Nat :=
  (global_search_state lib q).global_search_results

/-- The state after moving the overlay selection to row `sel` and
accepting it. -/
def after_global_accept (lib : List UiType) (q : String) (sel : Nat) : App :=
  select_global_result { global_search_state lib q with global_selected := some sel }

/-- The transition performed by typing in the type-filter box: replace
the filter string, then `update_filter` (as the key handler does). -/
def apply_type_filter (a : App) (q : String) : App :=
  update_filter { a with search_query := q }

/-! ## Concrete inputs used by the claim witnesses and counterexamples -/

/-- The concrete library used in the C2 theorems: loadable, with the
given entry list. -/
def demoLib (entries : List (Option TypeInfoM)) : TypeLibM :=
  { libAttrOk := true, libGuid := "\x7b00000000-0000-0000-0000-000000000001\x7d",
    libMajor := 1, libMinor := 0, docOk := true, libName := "L", libDocString := "",
    cast2Ok := false, libCustRes := .ok [], entries := entries, path := "lib.tlb" }

/-- An entry whose `GetTypeAttr` call fails. -/
def brokenEntry : TypeInfoM :=
  { attr := none, name := "Broken", docString := "", funcs := [], vars := [],
    implTypes := [], cast2Ok := false, custDataRes := .ok [], dllEntry := .error (),
    env := fun _ => none }

/-- The interface entry of the C3 witness library. -/
def demoIfaceTI : TypeInfoM :=
  { attr := some ⟨.tkindInterface, 0, "\x7b00000000-0000-0000-0000-0000000000A2\x7d", 1, 0⟩,
    name := "IFoo", docString := "",
    funcs := [⟨true, ⟨1, .func, .prim 25, []⟩, "DoIt", "", ["DoIt"]⟩],
    vars := [],
    implTypes := [⟨true, true, "IUnknown", some 0⟩],
    cast2Ok := false, custDataRes := .ok [], dllEntry := .error (),
    env := fun _ => none }

/-- The enum entry of the C3 witness library. -/
def demoEnumTI : TypeInfoM :=
  { attr := some ⟨.tkindEnum, 0, "\x7b00000000-0000-0000-0000-0000000000A1\x7d", 0, 0⟩,
    name := "Color", docString := "",
    funcs := [],
    vars := [⟨true, 0, "A", some 1, .prim 3⟩, ⟨true, 1, "B", some 2, .prim 3⟩],
    implTypes := [],
    cast2Ok := false, custDataRes := .ok [], dllEntry := .error (),
    env := fun _ => none }

/-- The C3 witness library: one interface then one enum. -/
def demoOrderLib : TypeLibM :=
  { libAttrOk := true, libGuid := "\x7b00000000-0000-0000-0000-0000000000A0\x7d",
    libMajor := 2, libMinor := 1, docOk := true, libName := "OrderLib",
    libDocString := "demo", cast2Ok := false, libCustRes := .ok [],
    entries := [some demoIfaceTI, some demoEnumTI], path := "order.tlb" }

/-- A concrete non-dual Dispatch entry (dispatchable flag 0x1000 set,
dual flag 0x40 clear). -/
def demoDispTI : TypeInfoM :=
  { attr := some ⟨.tkindDispatch, 4096, "\x7b00000000-0000-0000-0000-0000000000B1\x7d", 1, 0⟩,
    name := "DEvents", docString := "evts",
    funcs := [⟨true, ⟨1, .func, .prim 24, []⟩, "OnEvent", "", ["OnEvent"]⟩],
    vars := [], implTypes := [],
    cast2Ok := false, custDataRes := .ok [], dllEntry := .error (),
    env := fun _ => none }

/-- A small library with two loadable types (used by the C6 theorems). -/
def uiNavLib : List UiType :=
  [⟨some ("Document", "Dispatch"), some "", some [], some []⟩,
   ⟨some ("Window", "Dispatch"), some "", some [], some []⟩]

/-- A library with one type named `Document` (C6 counterexample). -/
def uiOneTypeLib : List UiType :=
  [⟨some ("Document", "Dispatch"), some "", some [], some []⟩]

/-- A library whose first entry fails its name/kind read, shifting the
`types`-vector indices against the library ordinals recorded in the
search index: entry 1 is `A` (vector index 0) and entry 2 is `Document`
with method `Open` (vector index 1, library ordinal 2). -/
def uiBrokenLib : List UiType :=
  [⟨none, none, none, none⟩,
   ⟨some ("A", "Dispatch"), some "", some [], some []⟩,
   ⟨some ("Document", "Dispatch"), some "", some [⟨"Open", "void", [], "func"⟩], some []⟩]

/-- The library of the C7 witness scenario: `Open` and `OpenAsync` in
type `Document`, `Close` in type `Window`. -/
def uiGlobalLib : List UiType :=
  [⟨some ("Document", "Dispatch"), some "",
    some [⟨"Open", "void", [], "func"⟩, ⟨"OpenAsync", "void", [], "func"⟩], some []⟩,
   ⟨some ("Window", "Dispatch"), some "", some [⟨"Close", "void", [], "func"⟩], some []⟩]

/-- The library used by the C8 witness. -/
def uiFilterLib : List UiType :=
  [⟨some ("Document", "Dispatch"), some "", some [⟨"Open", "void", [], "func"⟩], some []⟩,
   ⟨some ("Window", "Dispatch"), some "", some [], some []⟩]

end TlbWinmdGen

namespace TlbWinmdGen

/-! ## Theorems for claim C5 (type-descriptor resolver) -/

/-- C5: the type-descriptor resolver is total (it is a Lean function into
`String`): an unrecognized primitive tag `vt` renders as `TYPE_<vt>`; a
pointer descriptor renders as the pointee's resolution with one `*`
appended; a user-defined reference to an Enum entry is prefixed with
`enum `; and a user-defined reference whose entry cannot be located
renders as the placeholder `UnknownUserDefined`. -/
theorem type_desc_resolver_total (env : RefEnv) :
    (∀ vt : Nat, prim_name vt = none →
      type_desc_to_string env (.prim vt) = "TYPE_" ++ toString vt)
    ∧ (∀ td : TypeDesc,
      type_desc_to_string env (.ptr td) = type_desc_to_string env td ++ "*")
    ∧ (∀ (href : Nat) (name : String), env href = some ⟨name, some .tkindEnum⟩ →
      type_desc_to_string env (.userDefined href) = "enum " ++ name)
    ∧ (∀ href : Nat, env href = none →
      type_desc_to_string env (.userDefined href) = "UnknownUserDefined") := by
  refine ⟨fun vt h => ?_, fun td => rfl, fun href name h => ?_, fun href h => ?_⟩
  · simp [type_desc_to_string, h]
  · simp [type_desc_to_string, h]
  · simp [type_desc_to_string, h]

/-- Witness for C5 at concrete inputs: tag 28 (`VT_SAFEARRAY+1`, not in
the recognized table) renders as `TYPE_28`; a pointer to `long` renders
as `long*`; an enum reference gets the `enum ` tag; a dangling reference
renders as `UnknownUserDefined`. -/
theorem type_desc_resolver_total_witness :
    prim_name 28 = none
    ∧ type_desc_to_string (fun h => if h = 7 then some ⟨"MyEnum", some .tkindEnum⟩ else none)
        (.prim 28) = "TYPE_28"
    ∧ type_desc_to_string (fun h => if h = 7 then some ⟨"MyEnum", some .tkindEnum⟩ else none)
        (.ptr (.prim 3)) = "long*"
    ∧ type_desc_to_string (fun h => if h = 7 then some ⟨"MyEnum", some .tkindEnum⟩ else none)
        (.userDefined 7) = "enum MyEnum"
    ∧ type_desc_to_string (fun h => if h = 7 then some ⟨"MyEnum", some .tkindEnum⟩ else none)
        (.userDefined 9) = "UnknownUserDefined" := by
  have h := type_desc_resolver_total
    (fun h => if h = 7 then some ⟨"MyEnum", some .tkindEnum⟩ else none)
  exact ⟨rfl, h.1 28 rfl, h.2.1 (.prim 3), h.2.2.1 7 "MyEnum" rfl, h.2.2.2 9 rfl⟩

/-! ## Theorems for claim C1 (retval normalization in `get_function_info`) -/

/-- C1 (amended): when the guard (declared return type not `void`, or
invoke kind property-get) holds, and a `retval`-flagged parameter exists
at position `pos`, the extracted method's visible return type is that
parameter's resolved type with ALL trailing `*` characters stripped
(`trim_end_matches('*')`), and that parameter is removed from the
visible parameter list; when no `retval` parameter exists the declared
return type and parameter list are kept unchanged. -/
theorem retval_normalization_amended (env : RefEnv) (fn : String) (names : List String)
    (fd : FuncDesc) (mi : MethodInfo)
    (hmi : get_function_info env fn names fd = some mi)
    (hg : fd.invkind = InvokeKind.propertyget ∨ type_desc_to_string env fd.retTdesc ≠ "void") :
    match (build_params env names 0 fd.params).findIdx? (fun p => p.flags.contains "retval") with
    | some pos =>
        mi.ret_type
          = trim_end_stars (((build_params env names 0 fd.params).getD pos ⟨"", "", []⟩).type_name)
        ∧ mi.params = (build_params env names 0 fd.params).eraseIdx pos
    | none =>
        mi.ret_type = type_desc_to_string env fd.retTdesc
        ∧ mi.params = build_params env names 0 fd.params := by
  unfold get_function_info at hmi
  split at hmi
  · exact absurd hmi (by simp)
  · rw [if_pos hg] at hmi
    split at hmi <;> rename_i hfind <;>
      (injection hmi with h2; subst h2; exact ⟨rfl, rfl⟩)

/-- Witness for C1 (amended), doubling as the claim's own example: a
method with declared return type `HRESULT`, plain invoke kind and one
`[out, retval]` parameter of resolved type `long*` extracts to zero
parameters and visible return type `long`. -/
theorem retval_normalization_amended_witness :
    get_function_info (fun _ => none) "M" ["M", "x"]
        ⟨1, .func, .prim 25, [⟨.ptr (.prim 3), 10, none⟩]⟩
      = some ⟨"M", "long", [], "func"⟩
    ∧ ((⟨"M", "long", [], "func"⟩ : MethodInfo).ret_type
        = trim_end_stars (((build_params (fun _ => none) ["M", "x"] 0
            [⟨.ptr (.prim 3), 10, none⟩]).getD 0 ⟨"", "", []⟩).type_name)
      ∧ (⟨"M", "long", [], "func"⟩ : MethodInfo).params
        = (build_params (fun _ => none) ["M", "x"] 0
            [⟨.ptr (.prim 3), 10, none⟩]).eraseIdx 0) := by
  refine ⟨by decide, ?_⟩
  have h := retval_normalization_amended (fun _ => none) "M" ["M", "x"]
    ⟨1, .func, .prim 25, [⟨.ptr (.prim 3), 10, none⟩]⟩ ⟨"M", "long", [], "func"⟩
    (by decide) (Or.inr (by decide))
  have h2 : (build_params (fun _ => none) ["M", "x"] 0
        [⟨.ptr (.prim 3), 10, none⟩]).findIdx? (fun p => p.flags.contains "retval")
      = some 0 := by decide
  rw [h2] at h
  exact h

/-- Counterexample for C1 as stated: for a retval parameter of resolved
type `IDispatch**`, the code strips ALL trailing `*` (yielding
`IDispatch`), not exactly one (which would yield `IDispatch*`). -/
theorem retval_normalization_claim_counterexample :
    (get_function_info (fun _ => none) "Foo" ["Foo", "pp"]
        ⟨1, .func, .prim 25, [⟨.ptr (.prim 9), 10, none⟩]⟩).map MethodInfo.ret_type
      = some "IDispatch"
    ∧ type_desc_to_string (fun _ => none) (.ptr (.prim 9)) = "IDispatch**"
    ∧ strip_one_star "IDispatch**" = "IDispatch*"
    ∧ ("IDispatch" : String) ≠ "IDispatch*" := by
  exact ⟨by decide, by decide, by decide, by decide⟩

/-! ## Theorems for claim C4 (retval-name collision avoidance) -/

/-- A synthesized `arg<i>` name never collides case-insensitively with
`val` (it starts with `a`, not `v`). -/
theorem arg_name_ne_val (i : Nat) : eqIgnoreAsciiCase ("arg" ++ toString i) "val" = false := by
  rw [eqIgnoreAsciiCase, beq_eq_false_iff_ne]
  intro h
  have h3 : ("arg" ++ toString i).data = 'a' :: 'r' :: 'g' :: (toString i).data := by
    rw [String.data_append]; rfl
  have h4 : ("val" : String).data = ['v', 'a', 'l'] := rfl
  rw [h3, h4] at h
  simp only [List.map_cons, List.cons.injEq] at h
  exact absurd h.1 (by decide)

/-- The collision scan of `print_function` (over `names[1..]`) agrees
with scanning the names of the extracted parameter list, provided the
`GetNames` result is no longer than one entry per parameter plus the
function name (the API guarantee). -/
theorem drop_any_eq_build_params_any (env : RefEnv) (names : List String) :
    ∀ (l : List ElemDesc) (i : Nat), names.length ≤ l.length + i + 1 →
    (names.drop (i + 1)).any (fun s => eqIgnoreAsciiCase s "val")
      = (build_params env names i l).any (fun p => eqIgnoreAsciiCase p.name "val") := by
  intro l
  induction l with
  | nil =>
    intro i h
    rw [List.drop_eq_nil_of_le (by simpa using h)]
    rfl
  | cons ed rest ih =>
    intro i h
    by_cases hc : i + 1 < names.length
    · rw [List.drop_eq_getElem_cons hc]
      have hname : param_name_at names i = names[i + 1] := by
        unfold param_name_at
        rw [List.getElem?_eq_getElem hc]
      rw [build_params]
      simp only [List.any_cons, hname]
      rw [← ih (i + 1) (by simp only [List.length_cons] at h; omega)]
    · have hle : names.length ≤ i + 1 := by omega
      rw [List.drop_eq_nil_of_le hle]
      have hname : param_name_at names i = "arg" ++ toString i := by
        unfold param_name_at
        rw [List.getElem?_eq_none (by omega)]
      rw [build_params]
      simp only [List.any_cons, hname, arg_name_ne_val]
      rw [← ih (i + 1) (by simp only [List.length_cons] at h; omega),
        List.drop_eq_nil_of_le (by omega : names.length ≤ i + 1 + 1)]
      simp

/-- C4: the synthesized output-parameter name appended by the text
emitter is `val` by default and `retVal` exactly when some existing
parameter of the method is named `val` under case-insensitive
comparison (hypothesis: the `GetNames` result has at most one entry per
parameter plus the function name, as the API guarantees). -/
theorem retval_name_choice (env : RefEnv) (names : List String) (fd : FuncDesc)
    (h : names.length ≤ fd.params.length + 1) :
    ret_val_name names =
      (if (build_params env names 0 fd.params).any (fun p => eqIgnoreAsciiCase p.name "val")
       then "retVal" else "val") := by
  rw [ret_val_name]
  have h0 := drop_any_eq_build_params_any env names fd.params 0 (by omega)
  simp only [Nat.zero_add] at h0
  rw [h0]

/-- Witness for C4, doubling as the claim's own example: a method with a
single parameter `[in] long val` gets the emitted output-parameter name
`retVal`. -/
theorem retval_name_choice_witness :
    ret_val_name ["Method", "val"] = "retVal"
    ∧ (["Method", "val"] : List String).length
        ≤ ([⟨TypeDesc.prim 3, 1, none⟩] : List ElemDesc).length + 1 := by
  refine ⟨?_, by decide⟩
  have h := retval_name_choice (fun _ => none) ["Method", "val"]
    ⟨1, .func, .prim 25, [⟨.prim 3, 1, none⟩]⟩ (by decide)
  exact h.trans (by decide)

/-! ## Theorems for claim C9 (batch signature-line shape) -/

/-- The parameter-printing loop emits one string per parameter: no
parameter (in particular no retval-flagged one) is dropped. -/
theorem print_params_length (env : RefEnv) (names : List String) :
    ∀ (l : List ElemDesc) (i : Nat), (print_params env names i l).length = l.length := by
  intro l
  induction l with
  | nil => intro i; rfl
  | cons ed rest ih => intro i; simpa [print_params] using ih (i + 1)

/-- C9: every emitted batch signature line declares the literal return
type `HRESULT` regardless of the declared return type; the parameter
list is emitted in full (the retval parameter is not removed); and when
the declared return type is not `void` or the invoke kind is
property-get, a trailing `[out, retval] T* name` fragment is appended
with `T` the method's DECLARED return type. -/
theorem print_function_shape (env : RefEnv) (funcName docString : String)
    (names : List String) (fd : FuncDesc) (h : ¬ hidden_memid fd.memid) :
    print_function env funcName docString names fd =
      [id_line fd.memid docString,
       "        " ++ prop_tag fd.invkind ++ "HRESULT " ++ funcName ++ " ("
         ++ join_comma (print_params env names 0 fd.params)
         ++ ret_tail env names fd ++ ");"]
    ∧ (print_params env names 0 fd.params).length = fd.params.length
    ∧ ret_tail env names fd =
        (if fd.invkind = .propertyget ∨ type_desc_to_string env fd.retTdesc ≠ "void" then
          (if fd.params.length > 0 then ", " else "")
            ++ "[out, retval] " ++ type_desc_to_string env fd.retTdesc ++ "* "
            ++ ret_val_name names
         else "") := by
  exact ⟨by rw [print_function, if_neg h], print_params_length env names fd.params 0, rfl⟩

/-- Witness for C9: a method whose declared return type is `long` (not
`HRESULT`) with an `[in]` parameter and an `[out, retval]` parameter;
the emitted line still says `HRESULT`, keeps both parameters, and
appends `[out, retval] long* val`. -/
theorem print_function_shape_witness :
    print_function (fun _ => none) "M" "" ["M", "a", "r"]
        ⟨5, .func, .prim 3, [⟨.prim 3, 1, none⟩, ⟨.ptr (.prim 3), 10, none⟩]⟩
      = ["        [id(0x00000005)]",
         "        HRESULT M ([in] long a, [out, retval] long* r, [out, retval] long* val);"]
    ∧ (print_params (fun _ => none) ["M", "a", "r"] 0
        [⟨.prim 3, 1, none⟩, ⟨.ptr (.prim 3), 10, none⟩]).length = 2 := by
  have h := print_function_shape (fun _ => none) "M" "" ["M", "a", "r"]
    ⟨5, .func, .prim 3, [⟨.prim 3, 1, none⟩, ⟨.ptr (.prim 3), 10, none⟩]⟩ (by decide)
  exact ⟨h.1.trans (by decide), h.2.1.trans (by decide)⟩

/-! ## Shared lemmas about the `build_tlb` loops -/

/-- A successful `build_tlb` loop produces exactly the concatenation of
the per-entry contributions, in entry (= ascending ordinal) order. -/
theorem collect_entries_ok_flatten (f : TypeInfoM → Except Unit (List String)) :
    ∀ (l : List (Option TypeInfoM)) (out : List String),
    collect_entries f l = .ok out → out = (l.map (opt_lines f)).flatten := by
  intro l
  induction l with
  | nil =>
    intro out h
    injection h with h
    subst h
    rfl
  | cons e rest ih =>
    intro out h
    cases e with
    | none =>
      simp only [collect_entries] at h
      simp only [List.map_cons, List.flatten_cons, opt_lines, List.nil_append]
      exact ih out h
    | some ti =>
      simp only [collect_entries] at h
      cases hf : f ti with
      | error e2 => rw [hf] at h; exact absurd h (by simp)
      | ok v =>
        rw [hf] at h
        cases hr : collect_entries f rest with
        | error e2 => rw [hr] at h; exact absurd h (by simp)
        | ok vs =>
          rw [hr] at h
          injection h with h
          subst h
          simp only [List.map_cons, List.flatten_cons, opt_lines, except_list, hf]
          rw [ih vs hr]

/-- If some readable entry makes the per-entry step fail, the whole
loop fails. -/
theorem collect_entries_error_of_mem (f : TypeInfoM → Except Unit (List String)) :
    ∀ (l : List (Option TypeInfoM)) (ti : TypeInfoM), some ti ∈ l → f ti = .error () →
    collect_entries f l = .error () := by
  intro l
  induction l with
  | nil => intro ti h; exact absurd h (List.not_mem_nil _)
  | cons e rest ih =>
    intro ti hmem hf
    rcases List.mem_cons.mp hmem with heq | hmem2
    · rw [← heq]
      simp only [collect_entries, hf]
    · cases e with
      | none =>
        simp only [collect_entries]
        exact ih ti hmem2 hf
      | some tj =>
        simp only [collect_entries]
        cases hg : f tj with
        | error e2 => cases e2; rfl
        | ok v => simp [ih ti hmem2 hf]

/-- An entry whose `GetTypeInfo` fails contributes nothing to a loop:
removing it changes no loop result. -/
theorem collect_entries_skip_none (f : TypeInfoM → Except Unit (List String)) :
    ∀ (pre post : List (Option TypeInfoM)),
    collect_entries f (pre ++ none :: post) = collect_entries f (pre ++ post) := by
  intro pre post
  induction pre with
  | nil => simp only [List.nil_append, collect_entries]
  | cons e rest ih =>
    cases e with
    | none =>
      simp only [List.cons_append, collect_entries]
      exact ih
    | some ti =>
      simp only [List.cons_append, collect_entries]
      have ih2 : collect_entries f (rest.append (none :: post))
          = collect_entries f (rest.append post) := ih
      rw [ih2]

/-! ## Theorems for claim C2 (per-entry degradation policy) -/

/-- C2 (amended): `build_tlb` does NOT degrade unreadable entries to
placeholder comments.  An entry whose `GetTypeAttr` fails aborts the
whole synthesis with an error; an entry whose `GetTypeInfo` fails is
skipped silently, contributing no placeholder line (removing it leaves
the output unchanged).  Only library-open, `GetLibAttr`,
`GetDocumentation` and custom-data failures otherwise abort, and only
entries of unrecognized kind get a comment line. -/
theorem build_tlb_degradation_amended :
    (∀ (lib : TypeLibM) (ti : TypeInfoM), some ti ∈ lib.entries → ti.attr = none →
      build_tlb lib = .error ())
    ∧ (∀ (lib : TypeLibM) (pre post : List (Option TypeInfoM)),
      lib.entries = pre ++ none :: post →
      build_tlb lib = build_tlb { lib with entries := pre ++ post }) := by
  constructor
  · intro lib ti hmem hattr
    have hf : fwd_decl_one ti = .error () := by rw [fwd_decl_one, hattr]
    unfold build_tlb
    split
    · rfl
    split
    · rfl
    split
    · rename_i e heq
      cases e
      rfl
    · rw [collect_entries_error_of_mem fwd_decl_one lib.entries ti hmem hf]
  · intro lib pre post hent
    unfold build_tlb
    simp only [hent, collect_entries_skip_none]
    rfl

/-- Counterexample for C2 as stated: a loadable library with one entry
whose `GetTypeAttr` fails makes `build_tlb` fail as a whole — no
placeholder comment, no success status. -/
theorem synthesis_never_fails_counterexample :
    build_tlb (demoLib [some brokenEntry]) = .error () := rfl

/-- Witness for C2 (amended) at concrete inputs: the abort on a
readable entry with failing `GetTypeAttr`, and the silent skip of an
entry with failing `GetTypeInfo`. -/
theorem build_tlb_degradation_amended_witness :
    build_tlb (demoLib [some brokenEntry]) = .error ()
    ∧ build_tlb (demoLib [none]) = build_tlb { demoLib [none] with entries := [] ++ [] } := by
  constructor
  · exact build_tlb_degradation_amended.1 (demoLib [some brokenEntry]) brokenEntry
      (by simp [demoLib]) rfl
  · exact build_tlb_degradation_amended.2 (demoLib [none]) [] [] rfl

/-! ## Theorems for claim C3 (emission order of `build_tlb`) -/

/-- C3: a successful `build_tlb` output is exactly, in order: the
source-path comment with the library attribute block, library name and
opening brace; one forward declaration per Interface / Dispatch (dual as
`interface`, non-dual as `dispinterface`) / CoClass entry, in entry
order (ascending ordinal); the full bodies of every Enum entry in entry
order; the full bodies of every remaining entry in entry order; the
closing brace. -/
theorem build_tlb_emission_order (lib : TypeLibM) (out : List String)
    (h : build_tlb lib = .ok out) :
    (out = lib_header_with lib (except_list (lib_custom_attrs lib))
      ++ (lib.entries.map (opt_lines fwd_decl_one)).flatten ++ [""]
      ++ (lib.entries.map (opt_lines enum_pass_one)).flatten ++ [""]
      ++ (lib.entries.map (opt_lines other_pass_one)).flatten ++ ["\x7d;"])
    ∧ (∀ (ti : TypeInfoM) (a : TypeAttrM), ti.attr = some a → a.typekind = .tkindDispatch →
      fwd_decl_one ti = .ok (if a.wTypeFlags &&& 64 ≠ 0
        then ["    interface " ++ ti.name ++ ";"]
        else ["    dispinterface " ++ ti.name ++ ";"])) := by
  constructor
  · unfold build_tlb at h
    split at h
    · exact absurd h (by simp)
    split at h
    · exact absurd h (by simp)
    split at h <;> rename_i hcust
    · exact absurd h (by simp)
    split at h <;> rename_i hfwd
    · exact absurd h (by simp)
    split at h <;> rename_i hens
    · exact absurd h (by simp)
    split at h <;> rename_i hoth
    · exact absurd h (by simp)
    injection h with h
    subst h
    rw [collect_entries_ok_flatten _ _ _ hfwd, collect_entries_ok_flatten _ _ _ hens,
      collect_entries_ok_flatten _ _ _ hoth, hcust]
    rfl
  · intro ti a hattr hkind
    simp only [fwd_decl_one, hattr, hkind]

/-- Witness for C3: the concrete library's successful output decomposes
into the specified sections in order. -/
theorem build_tlb_emission_order_witness :
    except_list (build_tlb demoOrderLib)
      = lib_header_with demoOrderLib (except_list (lib_custom_attrs demoOrderLib))
        ++ (demoOrderLib.entries.map (opt_lines fwd_decl_one)).flatten ++ [""]
        ++ (demoOrderLib.entries.map (opt_lines enum_pass_one)).flatten ++ [""]
        ++ (demoOrderLib.entries.map (opt_lines other_pass_one)).flatten ++ ["\x7d;"] :=
  (build_tlb_emission_order demoOrderLib (except_list (build_tlb demoOrderLib)) rfl).1

/-! ## Theorems for claim C10 (non-dual Dispatch bodies are suppressed) -/

/-- C10: for a Dispatch entry without the dual flag, `print_type_info`
emits exactly the shared attribute header followed by the trailing blank
line — no `interface` or `dispinterface` body at all. -/
theorem non_dual_dispatch_suppressed (ti : TypeInfoM) (a : TypeAttrM)
    (hattr : ti.attr = some a) (hk : a.typekind = .tkindDispatch)
    (hd : a.wTypeFlags &&& 64 = 0) :
    print_type_info ti = Except.map (fun h => h ++ [""]) (print_interface_header ti) := by
  simp only [print_type_info, hattr]
  cases hh : print_interface_header ti with
  | error e => simp [Except.map]
  | ok header => simp [Except.map, type_body, hk, hd]

/-- Witness for C10: on the concrete entry the output is exactly the
bracketed attribute block plus one blank line, and nothing else. -/
theorem non_dual_dispatch_suppressed_witness :
    print_type_info demoDispTI
      = Except.map (fun h => h ++ [""]) (print_interface_header demoDispTI)
    ∧ print_type_info demoDispTI
      = .ok ["    [",
             "      uuid(\x7b00000000-0000-0000-0000-0000000000B1\x7d),",
             "      version(1.0),",
             "      helpstring(\"evts\"),",
             "      oleautomation",
             "    ]",
             ""] := by
  refine ⟨non_dual_dispatch_suppressed demoDispTI _ rfl rfl rfl, ?_⟩
  rfl

/-! ## Shared lemmas about the browsing state machine -/

/-- Rust `update_selection` only touches the content panes: every other
field is preserved. -/
theorem update_selection_eta (a : App) :
    update_selection a =
      { a with
        current_idl := (update_selection a).current_idl,
        current_methods := (update_selection a).current_methods,
        current_enums := (update_selection a).current_enums,
        content_scroll := (update_selection a).content_scroll,
        content_selected := (update_selection a).content_selected } := by
  unfold update_selection
  split <;> rfl

theorem update_selection_list_selected (a : App) :
    (update_selection a).list_selected = a.list_selected := by
  unfold update_selection; split <;> rfl

theorem update_selection_filtered_types (a : App) :
    (update_selection a).filtered_types = a.filtered_types := by
  unfold update_selection; split <;> rfl

theorem update_selection_types (a : App) :
    (update_selection a).types = a.types := by
  unfold update_selection; split <;> rfl

theorem update_selection_lib (a : App) :
    (update_selection a).lib = a.lib := by
  unfold update_selection; split <;> rfl

theorem update_selection_search_query (a : App) :
    (update_selection a).search_query = a.search_query := by
  unfold update_selection; split <;> rfl

theorem update_selection_member_search_query (a : App) :
    (update_selection a).member_search_query = a.member_search_query := by
  unfold update_selection; split <;> rfl

theorem update_selection_search_target (a : App) :
    (update_selection a).search_target = a.search_target := by
  unfold update_selection; split <;> rfl

theorem update_selection_focus (a : App) :
    (update_selection a).focus = a.focus := by
  unfold update_selection; split <;> rfl

theorem update_selection_all_search_items (a : App) :
    (update_selection a).all_search_items = a.all_search_items := by
  unfold update_selection; split <;> rfl

theorem update_selection_show_global_search (a : App) :
    (update_selection a).show_global_search = a.show_global_search := by
  unfold update_selection; split <;> rfl

theorem update_filter_filtered_types (a : App) :
    (update_filter a).filtered_types
      = filter_types_from (str_to_lower a.search_query) 0 a.types := by
  simp only [update_filter]
  split
  · rfl
  · rw [update_selection_filtered_types]

theorem update_filter_types (a : App) : (update_filter a).types = a.types := by
  simp only [update_filter]
  split
  · rfl
  · rw [update_selection_types]

theorem update_filter_lib (a : App) : (update_filter a).lib = a.lib := by
  simp only [update_filter]
  split
  · rfl
  · rw [update_selection_lib]

theorem update_filter_search_query (a : App) :
    (update_filter a).search_query = a.search_query := by
  simp only [update_filter]
  split
  · rfl
  · rw [update_selection_search_query]

theorem update_filter_member_search_query (a : App) :
    (update_filter a).member_search_query = a.member_search_query := by
  simp only [update_filter]
  split
  · rfl
  · rw [update_selection_member_search_query]

theorem update_filter_search_target (a : App) :
    (update_filter a).search_target = a.search_target := by
  simp only [update_filter]
  split
  · rfl
  · rw [update_selection_search_target]

theorem update_filter_focus (a : App) : (update_filter a).focus = a.focus := by
  simp only [update_filter]
  split
  · rfl
  · rw [update_selection_focus]

theorem update_filter_all_search_items (a : App) :
    (update_filter a).all_search_items = a.all_search_items := by
  simp only [update_filter]
  split
  · rfl
  · rw [update_selection_all_search_items]

theorem update_filter_show_global_search (a : App) :
    (update_filter a).show_global_search = a.show_global_search := by
  simp only [update_filter]
  split
  · rfl
  · rw [update_selection_show_global_search]

theorem select_member_row_eta (a : App) (mq : String) :
    select_member_row a mq
      = { a with content_selected := (select_member_row a mq).content_selected } := by
  unfold select_member_row
  split
  · split <;> rfl
  split
  · split <;> rfl
  · rfl

theorem update_global_search_results (a : App) :
    (update_global_search a).global_search_results
      = (if str_to_lower a.global_search_query = "" then []
         else search_results_from (str_to_lower a.global_search_query) 0 a.all_search_items) := by
  unfold update_global_search
  split <;> simp_all

theorem update_global_search_types (a : App) :
    (update_global_search a).types = a.types := by
  simp only [update_global_search]
  split <;> rfl

theorem update_global_search_lib (a : App) :
    (update_global_search a).lib = a.lib := by
  simp only [update_global_search]
  split <;> rfl

theorem update_global_search_all_search_items (a : App) :
    (update_global_search a).all_search_items = a.all_search_items := by
  simp only [update_global_search]
  split <;> rfl

/-- Characterization of `update_selection` at a state whose selection
resolves to original index `oi`. -/
theorem update_selection_at (a : App) (sel oi : Nat) (n k : String)
    (h1 : a.list_selected = some sel) (h2 : a.filtered_types[sel]? = some (oi, n, k)) :
    update_selection a =
      { a with
        current_idl := (lib_idl a.lib oi).getD a.current_idl,
        current_methods := (lib_methods a.lib oi).getD [],
        current_enums := (lib_enums a.lib oi).getD [],
        content_scroll := ⟨0, 0⟩,
        content_selected :=
          if ¬ ((lib_methods a.lib oi).getD []).isEmpty
             ∨ ¬ ((lib_enums a.lib oi).getD []).isEmpty
          then some 0 else none } := by
  unfold update_selection
  rw [h1, Option.some_bind, h2]

/-- Characterization of `update_filter`: the recomputed filtered list,
and the reset selection / reloaded content in the empty and non-empty
cases. -/
theorem update_filter_spec (b : App) :
    (filter_types_from (str_to_lower b.search_query) 0 b.types = [] →
      (update_filter b).list_selected = none
      ∧ (update_filter b).content_selected = none
      ∧ (update_filter b).current_methods = []
      ∧ (update_filter b).current_enums = [])
    ∧ (∀ oi n k rest,
        filter_types_from (str_to_lower b.search_query) 0 b.types = (oi, n, k) :: rest →
      (update_filter b).list_selected = some 0
      ∧ (update_filter b).current_methods = (lib_methods b.lib oi).getD []
      ∧ (update_filter b).current_enums = (lib_enums b.lib oi).getD []
      ∧ (update_filter b).content_scroll = ⟨0, 0⟩
      ∧ (update_filter b).content_selected =
          (if ¬ ((lib_methods b.lib oi).getD []).isEmpty
             ∨ ¬ ((lib_enums b.lib oi).getD []).isEmpty
           then some 0 else none)) := by
  constructor
  · intro hft
    simp only [update_filter]
    rw [hft]
    simp
  · intro oi n k rest hft
    simp only [update_filter]
    rw [hft, if_neg (by simp)]
    rw [update_selection_at _ 0 oi n k rfl (by simp)]
    refine ⟨?_, ?_, ?_, ?_, ?_⟩ <;> rfl

/-! ## Theorems for claim C6 (list navigation) -/

/-- C6 (amended): selection movement wraps circularly on non-empty
lists, and moving in an empty focused CONTENT list is a no-op; but with
the type list focused and no selection (the state of an empty filtered
type list), a move sets the selection to index 0 instead of leaving the
state unchanged. -/
theorem usize_sub_one_pos (n : Nat) (h0 : 0 < n) (h64 : n < 2 ^ 64) :
    usize_sub_one n = n - 1 := by
  unfold usize_sub_one
  have hp : (2 : Nat) ^ 64 = 18446744073709551616 := by norm_num
  omega

theorem usize_sub_one_zero : usize_sub_one 0 = 2 ^ 64 - 1 := by
  unfold usize_sub_one
  have hp : (2 : Nat) ^ 64 = 18446744073709551616 := by norm_num
  omega

/-- C6 (amended): selection movement wraps circularly on non-empty
lists, and moving in an empty focused CONTENT list is a no-op; but with
the type list focused and the filtered type list empty, a move is
neither a no-op nor safe: with no selection it sets the selection to
index 0, and from the state so reached (empty list, selection present)
the source computes `filtered_types.len() - 1`, which underflows — a
panic under debug overflow checks; under the release wrap-around
semantics the model implements, Down advances the selection to `i + 1`
and Up from row 0 sets it to `2 ^ 64 - 1`.  The wrap conjunct carries
the `usize` representability bound on the list length. -/
theorem list_nav_wrap_amended (a : App) :
    (a.focus = .typeList → a.filtered_types.length < 2 ^ 64 →
      ∀ i, a.list_selected = some i → i < a.filtered_types.length →
      (App.next a).list_selected
        = some (if i = a.filtered_types.length - 1 then 0 else i + 1)
      ∧ (App.previous a).list_selected
        = some (if i = 0 then a.filtered_types.length - 1 else i - 1))
    ∧ (a.focus = .content → ∀ i, a.content_selected = some i → i < content_len a →
      (App.next a).content_selected = some (if i = content_len a - 1 then 0 else i + 1)
      ∧ (App.previous a).content_selected
        = some (if i = 0 then content_len a - 1 else i - 1))
    ∧ (a.focus = .content → content_len a = 0 →
      App.next a = a ∧ App.previous a = a)
    ∧ (a.focus = .typeList → a.filtered_types = [] → a.list_selected = none →
      (App.next a).list_selected = some 0 ∧ (App.previous a).list_selected = some 0)
    ∧ (a.focus = .typeList → a.filtered_types = [] → ∀ i, a.list_selected = some i →
      (App.next a).list_selected = some (if i ≥ 2 ^ 64 - 1 then 0 else i + 1)
      ∧ (App.previous a).list_selected = some (if i = 0 then 2 ^ 64 - 1 else i - 1)) := by
  refine ⟨?_, ?_, ?_, ?_, ?_⟩
  · intro hf h64 i hsel hlt
    have hnext : (App.next a).list_selected
        = some (if i ≥ usize_sub_one a.filtered_types.length then 0 else i + 1) := by
      simp only [App.next, hf, hsel]
      rw [update_selection_list_selected]
    have hprev : (App.previous a).list_selected
        = some (if i = 0 then usize_sub_one a.filtered_types.length else i - 1) := by
      simp only [App.previous, hf, hsel]
      rw [update_selection_list_selected]
    rw [usize_sub_one_pos _ (by omega) h64] at hnext hprev
    refine ⟨?_, hprev⟩
    rw [hnext]
    by_cases he : i = a.filtered_types.length - 1
    · rw [if_pos he, if_pos (by omega)]
    · rw [if_neg he, if_neg (by omega)]
  · intro hf i hsel hlt
    have hnext : (App.next a).content_selected
        = some (if i ≥ content_len a - 1 then 0 else i + 1) := by
      simp only [App.next, hf, hsel]
      rw [if_pos (by omega)]
    have hprev : (App.previous a).content_selected
        = some (if i = 0 then content_len a - 1 else i - 1) := by
      simp only [App.previous, hf, hsel]
      rw [if_pos (by omega)]
    refine ⟨?_, hprev⟩
    rw [hnext]
    by_cases he : i = content_len a - 1
    · rw [if_pos he, if_pos (by omega)]
    · rw [if_neg he, if_neg (by omega)]
  · intro hf hlen
    constructor
    · simp only [App.next, hf]
      rw [if_neg (by omega)]
    · simp only [App.previous, hf]
      rw [if_neg (by omega)]
  · intro hf _ hsel
    constructor
    · simp only [App.next, hf, hsel]
      rw [update_selection_list_selected]
    · simp only [App.previous, hf, hsel]
      rw [update_selection_list_selected]
  · intro hf hempty i hsel
    constructor
    · have hnext : (App.next a).list_selected
          = some (if i ≥ usize_sub_one a.filtered_types.length then 0 else i + 1) := by
        simp only [App.next, hf, hsel]
        rw [update_selection_list_selected]
      rw [hnext, hempty]
      simp only [List.length_nil, usize_sub_one_zero]
    · have hprev : (App.previous a).list_selected
          = some (if i = 0 then usize_sub_one a.filtered_types.length else i - 1) := by
        simp only [App.previous, hf, hsel]
        rw [update_selection_list_selected]
      rw [hprev, hempty]
      simp only [List.length_nil, usize_sub_one_zero]

/-- Counterexample for C6 as stated: with the type list focused and the
filtered list emptied by the filter string `zzz`, pressing Down is NOT a
no-op — the selection changes from `none` to `some 0`. -/
theorem nav_empty_noop_counterexample :
    App.next (apply_type_filter (App.new uiOneTypeLib) "zzz")
      ≠ apply_type_filter (App.new uiOneTypeLib) "zzz" := by decide

/-- Witness for C6 (amended): wrapping on a two-element type list
(moving up from the first row selects the last; moving down selects the
second), the empty-content no-op, and the underflow wrap at the
reachable state obtained by emptying the filter and pressing Down once
(selection `some 0` over an empty list): Down then yields `some 1` and
Up yields `some (2 ^ 64 - 1)`. -/
theorem list_nav_wrap_amended_witness :
    (App.next (App.new uiNavLib)).list_selected = some 1
    ∧ (App.previous (App.new uiNavLib)).list_selected = some 1
    ∧ App.next { App.new ([] : List UiType) with focus := Focus.content }
      = { App.new ([] : List UiType) with focus := Focus.content }
    ∧ App.previous { App.new ([] : List UiType) with focus := Focus.content }
      = { App.new ([] : List UiType) with focus := Focus.content }
    ∧ (App.next (App.next (apply_type_filter (App.new uiOneTypeLib) "zzz"))).list_selected
      = some 1
    ∧ (App.previous (App.next (apply_type_filter (App.new uiOneTypeLib) "zzz"))).list_selected
      = some (2 ^ 64 - 1) := by
  have h1 := (list_nav_wrap_amended (App.new uiNavLib)).1
    (by decide) (by decide) 0 (by decide) (by decide)
  have h2 := (list_nav_wrap_amended
    { App.new ([] : List UiType) with focus := Focus.content }).2.2.1 (by decide) (by decide)
  have h3 := (list_nav_wrap_amended
    (App.next (apply_type_filter (App.new uiOneTypeLib) "zzz"))).2.2.2.2
    (by decide) (by decide) 0 (by decide)
  exact ⟨h1.1.trans (by decide), h1.2.trans (by decide), h2.1, h2.2,
    h3.1.trans (by decide), h3.2.trans (by decide)⟩

/-! ## Theorems for claim C8 (filter-change reset invariant) -/

/-- Membership characterization of the `update_filter` pipeline. -/
theorem mem_filter_types_from (q : String) :
    ∀ (l : List (String × String)) (m i : Nat) (n k : String),
    ((i, n, k) ∈ filter_types_from q m l)
      ↔ (∃ j, i = m + j ∧ l[j]? = some (n, k)
          ∧ strContains (str_to_lower n) q = true) := by
  intro l
  induction l with
  | nil =>
    intro m i n k
    simp [filter_types_from]
  | cons p rest ih =>
    intro m i n k
    obtain ⟨pn, pk⟩ := p
    rw [filter_types_from]
    by_cases hc : strContains (str_to_lower pn) q = true
    · rw [if_pos hc]
      constructor
      · intro hm
        rcases List.mem_cons.mp hm with heq | hm2
        · simp only [Prod.mk.injEq] at heq
          obtain ⟨hi, hn, hk⟩ := heq
          subst hn
          subst hk
          exact ⟨0, by omega, by simp, hc⟩
        · obtain ⟨j, hj1, hj2, hj3⟩ := (ih (m + 1) i n k).mp hm2
          exact ⟨j + 1, by omega, by simpa using hj2, hj3⟩
      · rintro ⟨j, hj1, hj2, hj3⟩
        cases j with
        | zero =>
          simp only [List.getElem?_cons_zero] at hj2
          injection hj2 with hj2
          simp only [Prod.mk.injEq] at hj2
          obtain ⟨hn, hk⟩ := hj2
          subst hn
          subst hk
          exact List.mem_cons.mpr (Or.inl (by rw [show i = m from by omega]))
        | succ j2 =>
          simp only [List.getElem?_cons_succ] at hj2
          exact List.mem_cons.mpr
            (Or.inr ((ih (m + 1) i n k).mpr ⟨j2, by omega, hj2, hj3⟩))
    · rw [if_neg hc]
      constructor
      · intro hm
        obtain ⟨j, hj1, hj2, hj3⟩ := (ih (m + 1) i n k).mp hm
        exact ⟨j + 1, by omega, by simpa using hj2, hj3⟩
      · rintro ⟨j, hj1, hj2, hj3⟩
        cases j with
        | zero =>
          simp only [List.getElem?_cons_zero] at hj2
          injection hj2 with hj2
          simp only [Prod.mk.injEq] at hj2
          obtain ⟨hn, hk⟩ := hj2
          rw [hn] at hc
          exact absurd hj3 hc
        | succ j2 =>
          simp only [List.getElem?_cons_succ] at hj2
          exact (ih (m + 1) i n k).mpr ⟨j2, by omega, hj2, hj3⟩

/-- C8: after a change of the type-filter string, the filtered type
list is exactly the case-insensitive substring matches (with original
indices); when it is empty, both the type and member selections are
cleared; when it is non-empty, the type selection is reset to row 0,
the member lists are reloaded from the newly selected type, the
member/detail scroll state is reset, and the member selection is the
first row of the new member list (`none` when it has no members) —
never an ordinal carried over from the previous filter or type. -/
theorem filter_change_reset (a : App) (q : String) :
    (∀ (i : Nat) (n k : String), ((i, n, k) ∈ (apply_type_filter a q).filtered_types)
      ↔ (a.types[i]? = some (n, k) ∧ strContains (str_to_lower n) (str_to_lower q) = true))
    ∧ ((apply_type_filter a q).filtered_types = [] →
        (apply_type_filter a q).list_selected = none
        ∧ (apply_type_filter a q).content_selected = none)
    ∧ (∀ (oi : Nat) (n k : String) rest,
        (apply_type_filter a q).filtered_types = (oi, n, k) :: rest →
        (apply_type_filter a q).list_selected = some 0
        ∧ (apply_type_filter a q).current_methods = (lib_methods a.lib oi).getD []
        ∧ (apply_type_filter a q).current_enums = (lib_enums a.lib oi).getD []
        ∧ (apply_type_filter a q).content_scroll = ⟨0, 0⟩
        ∧ (apply_type_filter a q).content_selected =
            (if ¬ ((lib_methods a.lib oi).getD []).isEmpty
               ∨ ¬ ((lib_enums a.lib oi).getD []).isEmpty
             then some 0 else none)) := by
  have hft : (apply_type_filter a q).filtered_types
      = filter_types_from (str_to_lower q) 0 a.types := by
    rw [apply_type_filter, update_filter_filtered_types]
  refine ⟨?_, ?_, ?_⟩
  · intro i n k
    rw [hft, mem_filter_types_from]
    constructor
    · rintro ⟨j, hj1, hj2, hj3⟩
      rw [show i = j from by omega]
      exact ⟨hj2, hj3⟩
    · rintro ⟨h1, h2⟩
      exact ⟨i, by omega, h1, h2⟩
  · intro h
    have h2 := (update_filter_spec { a with search_query := q }).1
      (by rw [← update_filter_filtered_types]; exact h)
    exact ⟨h2.1, h2.2.1⟩
  · intro oi n k rest h
    have h2 := (update_filter_spec { a with search_query := q }).2 oi n k rest
      (by rw [← update_filter_filtered_types]; exact h)
    exact h2

/-! ## Lemmas for claim C7 (global search) -/

/-- The empty query is a substring of every string. -/
theorem strContains_empty (s : String) : strContains s "" = true := by
  unfold strContains
  cases h : s.data with
  | nil => rfl
  | cons c cs =>
    rw [List.tails_cons, List.any_cons]
    have hp : (("" : String).data.isPrefixOf (c :: cs)) = true := rfl
    rw [hp, Bool.true_or]

/-- With an empty query, the filter pipeline keeps every type, pairing
it with its original index. -/
theorem filter_types_from_empty_getElem :
    ∀ (l : List (String × String)) (m k : Nat),
    (filter_types_from "" m l)[k]? = (l[k]?).map (fun p => (m + k, p.1, p.2)) := by
  intro l
  induction l with
  | nil => intro m k; simp [filter_types_from]
  | cons p rest ih =>
    intro m k
    obtain ⟨pn, pk⟩ := p
    rw [filter_types_from, if_pos (strContains_empty _)]
    cases k with
    | zero => simp
    | succ k2 =>
      rw [List.getElem?_cons_succ, List.getElem?_cons_succ, ih (m + 1) k2]
      simp only [show m + 1 + k2 = m + (k2 + 1) from by omega]

/-- With an empty query, looking up original index `m + k` in the
filtered list finds position `k` (accumulator-generalized form of
`List.findIdx?`). -/
theorem filter_types_from_empty_findIdx :
    ∀ (l : List (String × String)) (m k acc : Nat), k < l.length →
    List.findIdx? (fun t => t.1 == m + k) (filter_types_from "" m l) acc = some (acc + k) := by
  intro l
  induction l with
  | nil => intro m k acc h; simp at h
  | cons p rest ih =>
    intro m k acc h
    obtain ⟨pn, pk⟩ := p
    rw [filter_types_from, if_pos (strContains_empty _), List.findIdx?_cons]
    cases k with
    | zero => simp
    | succ k2 =>
      have hfalse : (((m, pn, pk) : Nat × String × String).1 == m + (k2 + 1)) = false :=
        beq_eq_false_iff_ne.mpr (by omega)
      rw [hfalse]
      simp only [Bool.false_eq_true, if_false]
      simp only [show m + (k2 + 1) = (m + 1) + k2 from by omega]
      rw [ih (m + 1) k2 (acc + 1) (by simp at h; omega)]
      simp only [show acc + 1 + k2 = acc + (k2 + 1) from by omega]

/-- Membership characterization of the global-search scan. -/
theorem mem_search_results_from (q : String) :
    ∀ (items : List SearchItem) (m j : Nat),
    (j ∈ search_results_from q m items)
      ↔ (∃ k it, j = m + k ∧ items[k]? = some it
          ∧ strContains (str_to_lower it.member_name) q = true) := by
  intro items
  induction items with
  | nil => intro m j; simp [search_results_from]
  | cons it rest ih =>
    intro m j
    rw [search_results_from]
    by_cases hc : strContains (str_to_lower it.member_name) q = true
    · rw [if_pos hc]
      constructor
      · intro hm
        rcases List.mem_cons.mp hm with heq | hm2
        · exact ⟨0, it, by omega, by simp, hc⟩
        · obtain ⟨k, it2, h1, h2, h3⟩ := (ih (m + 1) j).mp hm2
          exact ⟨k + 1, it2, by omega, by simpa using h2, h3⟩
      · rintro ⟨k, it2, h1, h2, h3⟩
        cases k with
        | zero =>
          simp only [List.getElem?_cons_zero] at h2
          injection h2 with h2
          subst h2
          exact List.mem_cons.mpr (Or.inl (by omega))
        | succ k2 =>
          simp only [List.getElem?_cons_succ] at h2
          exact List.mem_cons.mpr (Or.inr ((ih (m + 1) j).mpr ⟨k2, it2, by omega, h2, h3⟩))
    · rw [if_neg hc]
      constructor
      · intro hm
        obtain ⟨k, it2, h1, h2, h3⟩ := (ih (m + 1) j).mp hm
        exact ⟨k + 1, it2, by omega, by simpa using h2, h3⟩
      · rintro ⟨k, it2, h1, h2, h3⟩
        cases k with
        | zero =>
          simp only [List.getElem?_cons_zero] at h2
          injection h2 with h2
          subst h2
          exact absurd h3 hc
        | succ k2 =>
          simp only [List.getElem?_cons_succ] at h2
          exact (ih (m + 1) j).mpr ⟨k2, it2, by omega, h2, h3⟩

/-- Every index in the global-search result list is at least the
running offset. -/
theorem search_results_from_bound (q : String) :
    ∀ (items : List SearchItem) (m j : Nat), j ∈ search_results_from q m items → m ≤ j := by
  intro items
  induction items with
  | nil => intro m j h; simp [search_results_from] at h
  | cons it rest ih =>
    intro m j h
    rw [search_results_from] at h
    by_cases hc : strContains (str_to_lower it.member_name) q = true
    · rw [if_pos hc] at h
      rcases List.mem_cons.mp h with heq | h2
      · omega
      · have := ih (m + 1) j h2
        omega
    · rw [if_neg hc] at h
      have := ih (m + 1) j h
      omega

/-- The global-search result indices are strictly increasing: results
appear in index order over the full table. -/
theorem search_results_from_sorted (q : String) :
    ∀ (items : List SearchItem) (m : Nat),
    List.Pairwise (· < ·) (search_results_from q m items) := by
  intro items
  induction items with
  | nil => intro m; exact List.Pairwise.nil
  | cons it rest ih =>
    intro m
    rw [search_results_from]
    by_cases hc : strContains (str_to_lower it.member_name) q = true
    · rw [if_pos hc]
      exact List.Pairwise.cons
        (fun j hj => by have := search_results_from_bound q rest (m + 1) j hj; omega)
        (ih (m + 1))
    · rw [if_neg hc]
      exact ih (m + 1)

/-- Every search item records the library index and name of the type it
was built from. -/
theorem mem_mk_search_items_from :
    ∀ (lib : List UiType) (m : Nat) (it : SearchItem), it ∈ mk_search_items_from m lib →
    ∃ k t nm kd, it.type_index = m + k ∧ lib[k]? = some t
      ∧ t.nameKind = some (nm, kd) ∧ it.type_name = nm := by
  intro lib
  induction lib with
  | nil => intro m it h; simp [mk_search_items_from] at h
  | cons t rest ih =>
    intro m it h
    rw [mk_search_items_from] at h
    rcases List.mem_append.mp h with hblk | hrest
    · cases hnk : t.nameKind with
      | none => simp only [hnk] at hblk; simp at hblk
      | some nk =>
        obtain ⟨nm, kd⟩ := nk
        simp only [hnk] at hblk
        rcases List.mem_append.mp hblk with hm1 | hm1
        · cases hms : t.methods with
          | none => simp only [hms] at hm1; simp at hm1
          | some ms =>
            simp only [hms] at hm1
            obtain ⟨mm, _, heq⟩ := List.mem_map.mp hm1
            subst heq
            exact ⟨0, t, nm, kd, by simp, by simp, hnk, rfl⟩
        · cases hes : t.enums with
          | none => simp only [hes] at hm1; simp at hm1
          | some es =>
            simp only [hes] at hm1
            obtain ⟨ee, _, heq⟩ := List.mem_map.mp hm1
            subst heq
            exact ⟨0, t, nm, kd, by simp, by simp, hnk, rfl⟩
    · obtain ⟨k, t2, nm, kd, h1, h2, h3, h4⟩ := ih (m + 1) it hrest
      exact ⟨k + 1, t2, nm, kd, by omega, by simpa using h2, h3, h4⟩

/-- When every type's name lookup succeeded, the `types` table is the
per-index image of the library. -/
theorem mk_types_map (lib : List UiType) (hall : ∀ t ∈ lib, (t.nameKind).isSome = true) :
    mk_types lib = lib.map (fun t => t.nameKind.getD ("", "")) := by
  induction lib with
  | nil => rfl
  | cons t rest ih =>
    rw [mk_types, List.filterMap_cons]
    cases hnk : t.nameKind with
    | none => exact absurd (hall t (by simp)) (by simp [hnk])
    | some nk =>
      rw [List.map_cons]
      have ih2 := ih (fun t2 ht2 => hall t2 (by simp [ht2]))
      rw [mk_types] at ih2
      rw [ih2, hnk]
      rfl

/-- The result list of the global-search overlay in terms of the scan. -/
theorem global_results_eq (lib : List UiType) (q : String) :
    global_results lib q
      = (if str_to_lower q = "" then []
         else search_results_from (str_to_lower q) 0 (mk_search_items lib)) := by
  unfold global_results global_search_state
  rw [update_global_search_results]
  dsimp only
  rw [App.new, update_filter_all_search_items]

/-- Unfolding of `select_global_result` when the three lookups resolve. -/
theorem select_global_result_eq (a : App) (sel item_idx : Nat) (item : SearchItem)
    (h1 : a.global_selected = some sel)
    (h2 : a.global_search_results[sel]? = some item_idx)
    (h3 : a.all_search_items[item_idx]? = some item) :
    select_global_result a =
      (let a1 := update_filter { a with show_global_search := false, search_query := "" }
       let a2 := match a1.filtered_types.findIdx? (fun t => t.1 == item.type_index) with
         | some pos => update_selection { a1 with list_selected := some pos }
         | none => a1
       select_member_row
         { a2 with member_search_query := item.member_name, search_target := .members }
         (str_to_lower item.member_name)) := by
  unfold select_global_result
  rw [h1]
  dsimp only
  rw [h2]
  dsimp only
  rw [h3]

theorem select_member_row_search_query (a : App) (mq : String) :
    (select_member_row a mq).search_query = a.search_query := by
  unfold select_member_row
  split
  · split <;> rfl
  split
  · split <;> rfl
  · rfl

theorem select_member_row_search_target (a : App) (mq : String) :
    (select_member_row a mq).search_target = a.search_target := by
  unfold select_member_row
  split
  · split <;> rfl
  split
  · split <;> rfl
  · rfl

theorem select_member_row_member_search_query (a : App) (mq : String) :
    (select_member_row a mq).member_search_query = a.member_search_query := by
  unfold select_member_row
  split
  · split <;> rfl
  split
  · split <;> rfl
  · rfl

theorem select_member_row_show_global_search (a : App) (mq : String) :
    (select_member_row a mq).show_global_search = a.show_global_search := by
  unfold select_member_row
  split
  · split <;> rfl
  split
  · split <;> rfl
  · rfl

theorem select_member_row_list_selected (a : App) (mq : String) :
    (select_member_row a mq).list_selected = a.list_selected := by
  unfold select_member_row
  split
  · split <;> rfl
  split
  · split <;> rfl
  · rfl

theorem select_member_row_filtered_types (a : App) (mq : String) :
    (select_member_row a mq).filtered_types = a.filtered_types := by
  unfold select_member_row
  split
  · split <;> rfl
  split
  · split <;> rfl
  · rfl

/-- The accept path of the global search, for any overlay state over a
fully loadable library whose three lookups resolve to `item`. -/
theorem accept_chain_spec (lib : List UiType) (am : App) (sel item_idx : Nat)
    (item : SearchItem)
    (hall : ∀ t ∈ lib, (t.nameKind).isSome = true)
    (htypes : am.types = mk_types lib)
    (h1 : am.global_selected = some sel)
    (h2 : am.global_search_results[sel]? = some item_idx)
    (h3 : am.all_search_items[item_idx]? = some item)
    (hmemit : item ∈ mk_search_items lib) :
    (select_global_result am).search_query = ""
    ∧ (select_global_result am).search_target = SearchTarget.members
    ∧ (select_global_result am).member_search_query = item.member_name
    ∧ (select_global_result am).show_global_search = false
    ∧ (select_global_result am).list_selected = some item.type_index
    ∧ ((select_global_result am).filtered_types[item.type_index]?).map (fun t => t.2.1)
      = some item.type_name := by
  obtain ⟨kk, t, nm, kd, hk1, hk2, hk3, hk4⟩ := mem_mk_search_items_from lib 0 item hmemit
  have htidx : item.type_index = kk := by omega
  have hklen : kk < lib.length := by
    by_contra hge
    rw [List.getElem?_eq_none (by omega)] at hk2
    exact absurd hk2 (by simp)
  have hlen : (mk_types lib).length = lib.length := by
    rw [mk_types_map lib hall, List.length_map]
  have ha1ft : (update_filter
      { am with show_global_search := false, search_query := "" }).filtered_types
      = filter_types_from "" 0 (mk_types lib) := by
    rw [update_filter_filtered_types]
    dsimp only
    rw [show str_to_lower "" = "" from rfl, htypes]
  have hfi : List.findIdx? (fun t2 => t2.1 == item.type_index)
      (filter_types_from "" 0 (mk_types lib)) 0 = some item.type_index := by
    have h0 := filter_types_from_empty_findIdx (mk_types lib) 0 item.type_index 0 (by omega)
    simpa using h0
  rw [select_global_result_eq am sel item_idx item h1 h2 h3]
  dsimp only
  rw [ha1ft, hfi]
  dsimp only
  refine ⟨?_, ?_, ?_, ?_, ?_, ?_⟩
  · rw [select_member_row_search_query]
    dsimp only
    rw [update_selection_search_query]
    dsimp only
    rw [update_filter_search_query]
  · rw [select_member_row_search_target]
  · rw [select_member_row_member_search_query]
  · rw [select_member_row_show_global_search]
    dsimp only
    rw [update_selection_show_global_search]
    dsimp only
    rw [update_filter_show_global_search]
  · rw [select_member_row_list_selected]
    dsimp only
    rw [update_selection_list_selected]
  · rw [select_member_row_filtered_types]
    dsimp only
    rw [update_selection_filtered_types]
    dsimp only
    rw [filter_types_from_empty_getElem, mk_types_map lib hall, List.getElem?_map,
      htidx, hk2]
    simp [hk3, hk4]

/-- C7 (amended): with a selected global-search result, the result list
is exactly the indices of the SearchItems whose member name contains the
query as a case-insensitive substring, in strictly increasing index
order over the full table; accepting the result clears the type filter,
switches the filter target to members, seeds the member filter with the
chosen member's exact name and closes the overlay.  The claim's final
part — that the OWNING type is selected — holds only under the
hypothesis that every entry's name/kind read succeeded:
`SearchItem.type_index` stores the library ordinal while the selection
is matched against positions in the types vector, and the two coincide
exactly when no entry was skipped.  The counterexample shows a library
with one unreadable entry where accepting a result leaves a DIFFERENT
type selected. -/
theorem global_search_accept_spec (lib : List UiType) (q : String) (sel item_idx : Nat)
    (item : SearchItem)
    (hall : ∀ t ∈ lib, (t.nameKind).isSome = true)
    (hsel : (global_results lib q)[sel]? = some item_idx)
    (hitem : (mk_search_items lib)[item_idx]? = some item) :
    (∀ j, (j ∈ global_results lib q)
      ↔ (∃ it, (mk_search_items lib)[j]? = some it
          ∧ strContains (str_to_lower it.member_name) (str_to_lower q) = true))
    ∧ List.Pairwise (· < ·) (global_results lib q)
    ∧ (after_global_accept lib q sel).search_query = ""
    ∧ (after_global_accept lib q sel).search_target = SearchTarget.members
    ∧ (after_global_accept lib q sel).member_search_query = item.member_name
    ∧ (after_global_accept lib q sel).show_global_search = false
    ∧ (after_global_accept lib q sel).list_selected = some item.type_index
    ∧ ((after_global_accept lib q sel).filtered_types[item.type_index]?).map (fun t => t.2.1)
      = some item.type_name := by
  have hq : ¬ str_to_lower q = "" := by
    intro h0
    rw [global_results_eq, if_pos h0] at hsel
    simp at hsel
  have hres : global_results lib q
      = search_results_from (str_to_lower q) 0 (mk_search_items lib) := by
    rw [global_results_eq, if_neg hq]
  have hmem : ∀ j, (j ∈ global_results lib q)
      ↔ ∃ it, (mk_search_items lib)[j]? = some it
        ∧ strContains (str_to_lower it.member_name) (str_to_lower q) = true := by
    intro j
    rw [hres, mem_search_results_from]
    constructor
    · rintro ⟨k, it, hj1, hj2, hj3⟩
      refine ⟨it, ?_, hj3⟩
      rw [show j = k from by omega]
      exact hj2
    · rintro ⟨it, hj2, hj3⟩
      exact ⟨j, it, by omega, hj2, hj3⟩
  have hgt : (global_search_state lib q).types = mk_types lib := by
    rw [global_search_state, update_global_search_types]
    dsimp only
    rw [App.new, update_filter_types]
  have hitems : (global_search_state lib q).all_search_items = mk_search_items lib := by
    rw [global_search_state, update_global_search_all_search_items]
    dsimp only
    rw [App.new, update_filter_all_search_items]
  have hchain := accept_chain_spec lib
    { global_search_state lib q with global_selected := some sel } sel item_idx item hall
    hgt rfl hsel (by dsimp only; rw [hitems]; exact hitem) (List.getElem?_mem hitem)
  exact ⟨hmem, by rw [hres]; exact search_results_from_sorted _ _ _,
    hchain.1, hchain.2.1, hchain.2.2.1, hchain.2.2.2.1, hchain.2.2.2.2.1, hchain.2.2.2.2.2⟩

/-- Witness for C7 at the claim's own scenario: query `open` yields
exactly the items `Open` and `OpenAsync` (indices 0 and 1, in order);
accepting the second seeds the member filter with `OpenAsync` and
selects type `Document`. -/
theorem global_search_accept_spec_witness :
    global_results uiGlobalLib "open" = [0, 1]
    ∧ (after_global_accept uiGlobalLib "open" 1).member_search_query = "OpenAsync"
    ∧ (after_global_accept uiGlobalLib "open" 1).search_target = SearchTarget.members
    ∧ (after_global_accept uiGlobalLib "open" 1).search_query = ""
    ∧ (after_global_accept uiGlobalLib "open" 1).show_global_search = false
    ∧ (after_global_accept uiGlobalLib "open" 1).list_selected = some 0
    ∧ ((after_global_accept uiGlobalLib "open" 1).filtered_types[0]?).map (fun t => t.2.1)
      = some "Document" := by
  have h := global_search_accept_spec uiGlobalLib "open" 1 1
    ⟨0, "Document", "OpenAsync", "Method"⟩ (by decide) (by decide) (by decide)
  exact ⟨by decide, h.2.2.2.2.1, h.2.2.2.1, h.2.2.1, h.2.2.2.2.2.1,
    h.2.2.2.2.2.2.1, h.2.2.2.2.2.2.2⟩

/-- Counterexample for C7 as stated: in `uiBrokenLib` the first entry's
name/kind read failed, so it is absent from the types vector and the
later types sit one position earlier than their library ordinals.  The
sole search item is `Open`, owned by `Document` with library ordinal 2,
but the types vector has only two rows; accepting the result finds no
row whose index equals 2, leaves the selection at row 0 and the selected
row names type `A`, not the owning type `Document`. -/
theorem global_search_owner_mismatch_counterexample :
    mk_search_items uiBrokenLib = [⟨2, "Document", "Open", "Method"⟩]
    ∧ global_results uiBrokenLib "open" = [0]
    ∧ (after_global_accept uiBrokenLib "open" 0).member_search_query = "Open"
    ∧ (after_global_accept uiBrokenLib "open" 0).list_selected = some 0
    ∧ ((after_global_accept uiBrokenLib "open" 0).filtered_types[0]?).map (fun t => t.2.1)
      = some "A"
    ∧ ((after_global_accept uiBrokenLib "open" 0).filtered_types[0]?).map (fun t => t.2.1)
      ≠ some "Document" := by decide

/-- Witness for C8: typing `doc` filters down to `Document`, resets the
type selection to row 0, reloads its single method and selects member
row 0 with a reset scroll state. -/
theorem filter_change_reset_witness :
    (apply_type_filter (App.new uiFilterLib) "doc").filtered_types
      = [(0, "Document", "Dispatch")]
    ∧ (apply_type_filter (App.new uiFilterLib) "doc").list_selected = some 0
    ∧ (apply_type_filter (App.new uiFilterLib) "doc").current_methods
      = [⟨"Open", "void", [], "func"⟩]
    ∧ (apply_type_filter (App.new uiFilterLib) "doc").content_selected = some 0
    ∧ (apply_type_filter (App.new uiFilterLib) "doc").content_scroll = ⟨0, 0⟩ := by
  have h := (filter_change_reset (App.new uiFilterLib) "doc").2.2 0 "Document" "Dispatch" []
    (by decide)
  exact ⟨by decide, h.1, h.2.1.trans (by decide), h.2.2.2.2.trans (by decide), h.2.2.2.1⟩

end TlbWinmdGen
